import Mathlib

/-!
# CloudSigma provider: configuration validation, environment lifecycle, tools sources

A shallow embedding of

* `provider/cloudsigma/config.go`  (configFields, configDefaultFields, configImmutableFields,
  prepareConfig, validateConfig, the typed accessors of environConfig),
* `provider/cloudsigma/environ.go` (environ, SetConfig, Config, Bootstrap and the finalizer
  it returns, Destroy, Region),
* `environs/tools/urls.go`         (GetMetadataSources),
* `upgrades/steps124.go`           (stateStepsFor124),

followed by the properties proved about them.

Conventions.

* A Go `map[string]interface{}` is an association list read with `attr`; a missing key reads as
  `none`, which is also how the nil interface value is represented.
* A Go `error` is a value of `Error`; a nil error is `none`.
* A nil pointer is `none`.
* A call that may fail to return takes a bound on the nesting of calls and gives `none` when the
  bound does not suffice.
* Collaborators living outside the embedded files (the juju-level `config` package, the backend
  constructors, the generic bootstrap and teardown) are parameters.  Those with effects thread an
  abstract world `W`.
* The iteration order of a Go `range` over a map is a parameter `order`, a permutation of the keys.
-/

set_option autoImplicit false

namespace CloudSigma

/-! ## Values, attribute maps, errors -/

/-- Dynamic values carried by a configuration attribute map. -/
inductive Value where
  | str (s : String)
  | int (n : Int)
  | bool (b : Bool)
  deriving DecidableEq, Repr

/-- Attribute maps, `map[string]interface{}` in the source. -/
abbrev Attrs := List (String × Value)

/-- Map read `m[k]`; `none` is the nil interface obtained for a missing key. -/
def attr (m : Attrs) (k : String) : Option Value :=
  match m with
  | [] => none
  | (k', v) :: rest => if k' = k then some v else attr rest k

/-- Map write `m[k] = v` on a map with unique keys. -/
def setAttr (m : Attrs) (k : String) (v : Value) : Attrs :=
  match m with
  | [] => [(k, v)]
  | (k', v') :: rest => if k' = k then (k, v) :: rest else (k', v') :: setAttr rest k v

/-- Errors.  One constructor per `fmt.Errorf` call site of the embedded files, one for the schema
layer, and `ext` for errors produced by collaborators. -/
inductive Error where
  /-- Built by `fmt.Errorf("%s: must not be empty", field)`. -/
  | emptyField (field : String)
  /-- Built by `fmt.Errorf("%s: cannot change from %v to %v", field, old, new)`. -/
  | immutableChanged (field : String) (old new : Option Value)
  /-- A schema failure on `field`: `expected` names the declared type, `got` is the offending
  value (`none` when the field is missing). -/
  | schema (field : String) (expected : String) (got : Option Value)
  /-- Built by `fmt.Errorf("Can't obtain state server address")`. -/
  | addressUnavailable
  /-- Built by `fmt.Errorf("failed prepare storage: %v", err)`. -/
  | prepareStorageFailed (cause : Error)
  /-- An error value returned by a collaborator. -/
  | ext (msg : String)
  deriving DecidableEq, Repr

/-- Rendering of an interface value by the `%v` verb. -/
def fmtV : Option Value → String
  | none => "<nil>"
  | some (.str s) => s
  | some (.int n) => toString n
  | some (.bool b) => toString b

/-- Rendering of a non-nil interface value by the verbs `%T(%#v)`, as the schema layer prints
the value it rejects: the type name followed by the value in Go syntax.  A string is put between
double quotes; the escapes that Go syntax uses inside the quotes are not produced. -/
def fmtTyped : Value → String
  | Value.str s =>
      "string(" ++ String.singleton (Char.ofNat 34) ++ s ++ String.singleton (Char.ofNat 34) ++ ")"
  | Value.int n => "int(" ++ toString n ++ ")"
  | Value.bool b => "bool(" ++ toString b ++ ")"

/-- The message text of an error. -/
def Error.message : Error → String
  | .emptyField f => f ++ ": must not be empty"
  | .immutableChanged f o n => f ++ ": cannot change from " ++ fmtV o ++ " to " ++ fmtV n
  | .schema f e g =>
      f ++ ": expected " ++ e ++ ", got " ++
        (match g with
          | none => "nothing"
          | some v => fmtTyped v)
  | .addressUnavailable => "Can't obtain state server address"
  | .prepareStorageFailed c => "failed prepare storage: " ++ c.message
  | .ext m => m

/-! ## config.go -/

/-- Schema checkers used by the provider: `schema.String()` and `schema.ForceInt()`. -/
inductive Checker where
  | string
  | forceInt
  deriving DecidableEq, Repr

/-- The type `schema.Fields`. -/
abbrev Fields := List (String × Checker)

/-- The type `schema.Defaults`. -/
abbrev Defaults := List (String × Value)

/-- The constant `defaultStoragePort`. -/
def defaultStoragePort : Int := 8040

/-- The constant `gosigma.DefaultRegion` of the gosigma client library, which is not part of
the embedded files; `zrh` is the first region that the boilerplate configuration of `config.go`
names. -/
def DefaultRegion : String := "zrh"

/-- The table `configFields`. -/
def configFields : Fields :=
  [ ("username", Checker.string),
    ("password", Checker.string),
    ("region", Checker.string),
    ("storage-port", Checker.forceInt),
    ("storage-auth-key", Checker.string) ]

/-- The table `configDefaultFields`. -/
def configDefaultFields : Defaults :=
  [ ("username", Value.str ""),
    ("password", Value.str ""),
    ("region", Value.str DefaultRegion),
    ("storage-port", Value.int defaultStoragePort) ]

/-- The list `configSecretFields`. -/
def configSecretFields : List String := ["storage-auth-key"]

/-- The list `configImmutableFields`. -/
def configImmutableFields : List String := ["storage-port", "storage-auth-key", "region"]

/-- The keys of `configFields`, in declaration order. -/
def configFieldNames : List String := configFields.map Prod.fst

/-- The juju-level `config` package as seen from the provider.  `Cfg` is `*config.Config`. -/
structure ConfigPkg (Cfg : Type) where
  /-- The call `config.Validate(cfg, old)`: the juju-level sanity check; `none` is a nil error. -/
  Validate : Cfg → Option Cfg → Option Error
  /-- The call `cfg.UnknownAttrs()`: a copy of the provider-specific attributes. -/
  UnknownAttrs : Cfg → Attrs
  /-- The call `cfg.ValidateUnknownAttrs(fields, defaults)`. -/
  ValidateUnknownAttrs : Cfg → Fields → Defaults → Except Error Attrs
  /-- The call `cfg.Apply(attrs)`. -/
  Apply : Cfg → Attrs → Except Error Cfg

/-- The struct `environConfig`: a juju configuration with its validated provider attributes. -/
structure environConfig (Cfg : Type) where
  Config : Cfg
  attrs : Attrs

/-- The loop `for field := range configFields { if newAttrs[field] == "" { return error } }`,
visiting the keys in the order `order`.  The comparison of an interface value with the string
constant holds exactly for a string value that is empty. -/
def checkEmpty (newAttrs : Attrs) : List String → Option Error
  | [] => none
  | field :: rest =>
      if attr newAttrs field = some (Value.str "") then some (Error.emptyField field)
      else checkEmpty newAttrs rest

/-- The loop over `configImmutableFields` comparing `old.attrs[field]` with `newAttrs[field]`. -/
def checkImmutable (oldAttrs newAttrs : Attrs) : List String → Option Error
  | [] => none
  | field :: rest =>
      if attr oldAttrs field ≠ attr newAttrs field then
        some (Error.immutableChanged field (attr oldAttrs field) (attr newAttrs field))
      else checkImmutable oldAttrs newAttrs rest

/-- The function `validateConfig(cfg, old)`.  `order` is the order in which the range over the
`configFields` map visits its keys. -/
def validateConfig {Cfg : Type} (pkg : ConfigPkg Cfg) (order : List String) (cfg : Cfg)
    (old : Option (environConfig Cfg)) : Except Error (environConfig Cfg) :=
  let oldCfg : Option Cfg := match old with
    | some o => some o.Config
    | none => none
  match pkg.Validate cfg oldCfg with
  | some err => Except.error err
  | none =>
    match pkg.ValidateUnknownAttrs cfg configFields configDefaultFields with
    | Except.error err => Except.error err
    | Except.ok newAttrs =>
      match checkEmpty newAttrs order with
      | some err => Except.error err
      | none =>
        let immutableErr : Option Error := match old with
          | some o => checkImmutable o.attrs newAttrs configImmutableFields
          | none => none
        match immutableErr with
        | some err => Except.error err
        | none =>
          match pkg.Apply cfg newAttrs with
          | Except.error err => Except.error err
          | Except.ok newCfg => Except.ok { Config := newCfg, attrs := newAttrs }

/-- The result of a Go function that may panic. -/
inductive Outcome (α : Type) where
  | returned (a : α)
  | panicked

/-- The accessor `region()`: the type assertion `c.attrs["region"].(string)` panics on anything
but a string. -/
def environConfig.region {Cfg : Type} (c : environConfig Cfg) : Outcome String :=
  match attr c.attrs "region" with
  | some (Value.str s) => Outcome.returned s
  | _ => Outcome.panicked

/-- The accessor `username()`. -/
def environConfig.username {Cfg : Type} (c : environConfig Cfg) : Outcome String :=
  match attr c.attrs "username" with
  | some (Value.str s) => Outcome.returned s
  | _ => Outcome.panicked

/-- The accessor `password()`. -/
def environConfig.password {Cfg : Type} (c : environConfig Cfg) : Outcome String :=
  match attr c.attrs "password" with
  | some (Value.str s) => Outcome.returned s
  | _ => Outcome.panicked

/-- The accessor `storagePort()`: the type assertion `c.attrs["storage-port"].(int)`. -/
def environConfig.storagePort {Cfg : Type} (c : environConfig Cfg) : Outcome Int :=
  match attr c.attrs "storage-port" with
  | some (Value.int n) => Outcome.returned n
  | _ => Outcome.panicked

/-- The accessor `storageAuthKey()`: the checked type assertion falls back to the empty
string. -/
def environConfig.storageAuthKey {Cfg : Type} (c : environConfig Cfg) : String :=
  match attr c.attrs "storage-auth-key" with
  | some (Value.str s) => s
  | _ => ""

/-- The function `prepareConfig(cfg)`.  `NewUUID` is `utils.NewUUID` followed by `String()`,
acting on the world `W`. -/
def prepareConfig {Cfg W : Type} (pkg : ConfigPkg Cfg) (NewUUID : W → Except Error String × W)
    (cfg : Cfg) (w : W) : Except Error Cfg × W :=
  let attrs := pkg.UnknownAttrs cfg
  match attr attrs "storage-auth-key" with
  | some _ => (pkg.Apply cfg attrs, w)
  | none =>
    match NewUUID w with
    | (Except.error err, w1) => (Except.error err, w1)
    | (Except.ok uuid, w1) =>
        (pkg.Apply cfg (setAttr attrs "storage-auth-key" (Value.str uuid)), w1)

/-! ## The schema layer, as far as the provider relies on it -/

/-- The name a checker reports for the type it expects. -/
def Checker.expected : Checker → String
  | Checker.string => "string"
  | Checker.forceInt => "number"

/-- Modelled from the spec: the coercion of a field value to its declared type, which is not part
of the embedded files.  A value already of the declared type is accepted unchanged and any other
value "cannot be coerced to its declared type".  Conversions between representations (a numeric
string or a float offered for an integer field) are not modelled. -/
def coerce : Checker → Value → Option Value
  | Checker.string, Value.str s => some (Value.str s)
  | Checker.forceInt, Value.int n => some (Value.int n)
  | _, _ => none

/-- Modelled from the spec: the field-by-field pass of `ValidateUnknownAttrs`, which is not part
of the embedded files.  It "applies schema defaults for any missing" field and "fails with
SchemaError if a required field is missing after defaulting, or a field value cannot be coerced
to its declared type".  The result holds exactly the declared fields ("all of configFields will be
present in validated, and defaults will be inserted if necessary", as the comment in
`validateConfig` puts it).  Fields are visited in declaration order. -/
def validateFields (raw : Attrs) (defaults : Defaults) : Fields → Except Error Attrs
  | [] => Except.ok []
  | (name, chk) :: rest =>
      let given : Option Value := match attr raw name with
        | some v => some v
        | none => attr defaults name
      match given with
      | none => Except.error (Error.schema name chk.expected none)
      | some v =>
        match coerce chk v with
        | none => Except.error (Error.schema name chk.expected (some v))
        | some v' =>
          match validateFields raw defaults rest with
          | Except.error err => Except.error err
          | Except.ok out => Except.ok ((name, v') :: out)

/-- Overlay of `attrs` on `base`: every key of `attrs` is written into `base`. -/
def overlay (base : Attrs) : Attrs → Attrs
  | [] => base
  | (k, v) :: rest => overlay (setAttr base k v) rest

/-- Modelled from the spec: a `config` package in which a configuration is just its map of
provider attributes, the juju-level check accepts every configuration, the schema pass is
`validateFields` and `Apply` overlays the given attributes.  The juju-level package is not part
of the embedded files; this instance is what the scenarios of the spec are run against. -/
def specPkg : ConfigPkg Attrs where
  Validate := fun _ _ => none
  UnknownAttrs := fun cfg => cfg
  ValidateUnknownAttrs := fun cfg fields defaults => validateFields cfg defaults fields
  Apply := fun cfg attrs => Except.ok (overlay cfg attrs)

/-- A fully specified raw configuration. -/
def fullConfig : Attrs :=
  [ ("username", Value.str "a"),
    ("password", Value.str "b"),
    ("region", Value.str "zrh"),
    ("storage-port", Value.int 8040),
    ("storage-auth-key", Value.str "key") ]

/-- The validated form of `fullConfig` under `specPkg`. -/
def fullValidated : environConfig Attrs :=
  { Config := fullConfig, attrs := fullConfig }

/-! ## environ.go -/

/-- The struct `environ` without its mutex: the name, the stored configuration, the client and
the storage handle.  A nil pointer is `none`. -/
structure environ (Cfg Client Storage : Type) where
  name : String
  ecfg : Option (environConfig Cfg)
  client : Option Client
  storage : Option Storage

/-- An environment right after creation, before any `SetConfig`: `&environ{name: name}`. -/
def environ.fresh {Cfg Client Storage : Type} (name : String) : environ Cfg Client Storage :=
  { name := name, ecfg := none, client := none, storage := none }

/-- A generic bootstrap finalizer, `environs.BootstrapFinalizer`, acting on the world. -/
abbrev Finalizer (Ctx Mcfg W : Type) := Ctx → Mcfg → W → Option Error × W

/-- The collaborators of `environ.go` that live outside the embedded files.  Each of them acts on
the world `W`; a constructor that returns without error returns a handle. -/
structure Backend (Cfg Client Storage Ctx Params Mcfg W : Type) where
  /-- The call `newClient(ecfg)`. -/
  newClient : environConfig Cfg → W → Except Error Client × W
  /-- The call `newStorage(ecfg, client)`. -/
  newStorage : environConfig Cfg → Client → W → Except Error Storage × W
  /-- The field `tmp` of a storage handle: whether it is a temporary, local store. -/
  tmp : Storage → Bool
  /-- The call `client.stateServerAddress()`, returning two strings and the flag `ok`. -/
  stateServerAddress : Client → W → (String × String × Bool) × W
  /-- The call `env.prepareStorage(addr, mcfg)`. -/
  prepareStorage : environ Cfg Client Storage → String → Mcfg → W → Option Error × W
  /-- The call `common.Bootstrap(ctx, env, params)`, returning `arch, series, finalizer, err`. -/
  commonBootstrap : environ Cfg Client Storage → Ctx → Params → W →
    (String × String × Option (Finalizer Ctx Mcfg W) × Option Error) × W
  /-- The call `common.Destroy(env)`. -/
  commonDestroy : environ Cfg Client Storage → W → Option Error × W

/-- Modelled from the spec: `clientConfigChanged`, which is not part of the embedded files.  It
"compares the subset of fields that affect backend connectivity (credentials, endpoint/region)
between old and new configuration" and reports whether any of them differs. -/
def clientConfigChanged {Cfg : Type} (old new : environConfig Cfg) : Bool :=
  decide (attr old.attrs "region" ≠ attr new.attrs "region") ||
  decide (attr old.attrs "username" ≠ attr new.attrs "username") ||
  decide (attr old.attrs "password" ≠ attr new.attrs "password")

/-- What `SetConfig` leaves behind: the returned error, the environment and the world. -/
structure SetConfigResult (Cfg Client Storage W : Type) where
  err : Option Error
  env : environ Cfg Client Storage
  world : W

/-- The condition `env.client == nil || env.ecfg == nil || env.ecfg.clientConfigChanged(ecfg)`. -/
def needsNewClient {Cfg Client Storage : Type} (env : environ Cfg Client Storage)
    (ecfg : environConfig Cfg) : Bool :=
  match env.client, env.ecfg with
  | none, _ => true
  | some _, none => true
  | some _, some old => clientConfigChanged old ecfg

/-- The method `SetConfig(cfg)`, run with the lock held.  `order` is the key order of the range
inside `validateConfig`. -/
def environ.SetConfig {Cfg Client Storage Ctx Params Mcfg W : Type} (pkg : ConfigPkg Cfg)
    (be : Backend Cfg Client Storage Ctx Params Mcfg W) (order : List String)
    (env : environ Cfg Client Storage) (cfg : Cfg) (w : W) : SetConfigResult Cfg Client Storage W :=
  match validateConfig pkg order cfg env.ecfg with
  | Except.error err => { err := some err, env := env, world := w }
  | Except.ok ecfg =>
    if needsNewClient env ecfg then
      match be.newClient ecfg w with
      | (Except.error err, w1) => { err := some err, env := env, world := w1 }
      | (Except.ok client, w1) =>
        match be.newStorage ecfg client w1 with
        | (Except.error err, w2) => { err := some err, env := env, world := w2 }
        | (Except.ok storage, w2) =>
          { err := none,
            env := { env with client := some client, storage := some storage, ecfg := some ecfg },
            world := w2 }
    else
      { err := none, env := { env with ecfg := some ecfg }, world := w }

/-- The method `Config()`: `env.ecfg.Config`, a nil dereference when nothing is stored. -/
def environ.Config {Cfg Client Storage : Type} (env : environ Cfg Client Storage) : Outcome Cfg :=
  match env.ecfg with
  | none => Outcome.panicked
  | some ecfg => Outcome.returned ecfg.Config

/-- The struct `simplestreams.CloudSpec`. -/
structure CloudSpec where
  Region : String
  Endpoint : String
  deriving DecidableEq, Repr

/-- The method `cloudSpec(region)`; `ResolveEndpoint` is `gosigma.ResolveEndpoint`. -/
def environ.cloudSpec (ResolveEndpoint : String → Except Error String) (region : String) :
    Except Error CloudSpec :=
  match ResolveEndpoint region with
  | Except.error err => Except.error err
  | Except.ok endpoint => Except.ok { Region := region, Endpoint := endpoint }

/-- The method `Region()`: `env.cloudSpec(env.ecfg.region())`, a nil dereference when nothing is
stored. -/
def environ.Region {Cfg Client Storage : Type} (ResolveEndpoint : String → Except Error String)
    (env : environ Cfg Client Storage) : Outcome (Except Error CloudSpec) :=
  match env.ecfg with
  | none => Outcome.panicked
  | some ecfg =>
    match ecfg.region with
    | Outcome.panicked => Outcome.panicked
    | Outcome.returned region => Outcome.returned (environ.cloudSpec ResolveEndpoint region)

/-- The value of a variable of type `environs.BootstrapFinalizer` as the closure of `Bootstrap`
calls it: run against the environment of its time it gives an outcome and a world, or it does
not return (`none`). -/
abbrev EnvFinalizer (Cfg Client Storage Ctx Mcfg W : Type) :=
  environ Cfg Client Storage → Ctx → Mcfg → W → Option (Outcome (Option Error) × W)

/-- The generic finalizer handed back by `common.Bootstrap`, as a value of the variable
`finalizer`.  Calling a nil function panics. -/
def genericFinalizer {Cfg Client Storage Ctx Mcfg W : Type}
    (finalizer : Option (Finalizer Ctx Mcfg W)) : EnvFinalizer Cfg Client Storage Ctx Mcfg W :=
  fun _ ctx mcfg w =>
    match finalizer with
    | none => some (Outcome.panicked, w)
    | some fin =>
      match fin ctx mcfg w with
      | (err, w1) => some (Outcome.returned err, w1)

/-- The body of the closure `newFinalizer` built by `Bootstrap`, applied to the environment as
it is when the closure runs (the closure holds the pointer `env`).  The closure captures the
named result `finalizer` of `Bootstrap` as a variable; the argument `finalizer` is the value
that variable holds when the closure runs. -/
def newFinalizer {Cfg Client Storage Ctx Params Mcfg W : Type}
    (be : Backend Cfg Client Storage Ctx Params Mcfg W)
    (finalizer : EnvFinalizer Cfg Client Storage Ctx Mcfg W)
    (env : environ Cfg Client Storage) (ctx : Ctx) (mcfg : Mcfg) (w : W) :
    Option (Outcome (Option Error) × W) :=
  match finalizer env ctx mcfg w with
  | none => none
  | some (Outcome.panicked, w1) => some (Outcome.panicked, w1)
  | some (Outcome.returned (some err), w1) => some (Outcome.returned (some err), w1)
  | some (Outcome.returned none, w1) =>
    match env.storage with
    | none => some (Outcome.panicked, w1)
    | some storage =>
      if be.tmp storage then
        match env.client with
        | none => some (Outcome.panicked, w1)
        | some client =>
          match be.stateServerAddress client w1 with
          | ((_, _, false), w2) => some (Outcome.returned (some Error.addressUnavailable), w2)
          | ((_, addr, true), w2) =>
            match be.prepareStorage env addr mcfg w2 with
            | (some err, w3) =>
                some (Outcome.returned (some (Error.prepareStorageFailed err)), w3)
            | (none, w3) => some (Outcome.returned none, w3)
      else some (Outcome.returned none, w1)

/-- The finalizer that `Bootstrap` returns.  The statement `return arch, series, newFinalizer,
err` stores the closure in the named result `finalizer`, which is the variable the closure
calls.  When the caller runs the returned finalizer, the call `finalizer(ctx, mcfg)` in its body
is therefore a call of the closure itself, not of the generic finalizer that the variable held
before the return.  `depth` bounds the nesting of these calls; `none` says that the bound did
not suffice for the call to return. -/
def returnedFinalizer {Cfg Client Storage Ctx Params Mcfg W : Type}
    (be : Backend Cfg Client Storage Ctx Params Mcfg W) :
    Nat → EnvFinalizer Cfg Client Storage Ctx Mcfg W
  | 0 => fun _ _ _ _ => none
  | depth + 1 => newFinalizer be (returnedFinalizer be depth)

/-- The four results `arch, series, finalizer, err` of `Bootstrap`. -/
inductive BootstrapResult (Cfg Client Storage Ctx Mcfg W : Type) where
  /-- The case where `common.Bootstrap` failed: its four results are returned as they are. -/
  | failed (arch series : String) (finalizer : Option (Finalizer Ctx Mcfg W)) (err : Error)
  /-- The case where `common.Bootstrap` succeeded: the closure is returned with a nil error.
  The finalizer is given with the bound on the nesting of its calls as first argument. -/
  | started (arch series : String)
      (finalizer : Nat → EnvFinalizer Cfg Client Storage Ctx Mcfg W)

/-- The method `Bootstrap(ctx, params)`.  On success the generic finalizer that
`common.Bootstrap` stored in the named result `finalizer` is overwritten by the return
statement with the closure. -/
def environ.Bootstrap {Cfg Client Storage Ctx Params Mcfg W : Type}
    (be : Backend Cfg Client Storage Ctx Params Mcfg W) (env : environ Cfg Client Storage)
    (ctx : Ctx) (params : Params) (w : W) : BootstrapResult Cfg Client Storage Ctx Mcfg W × W :=
  match be.commonBootstrap env ctx params w with
  | ((arch, series, finalizer, some err), w1) =>
      (BootstrapResult.failed arch series finalizer err, w1)
  | ((arch, series, _, none), w1) =>
      (BootstrapResult.started arch series (returnedFinalizer be), w1)

/-- What `Destroy` leaves behind: the returned error, the environment and the world. -/
structure DestroyResult (Cfg Client Storage W : Type) where
  err : Option Error
  env : environ Cfg Client Storage
  world : W

/-- The method `Destroy()`: `return common.Destroy(env)`.  No field of the environment is
written. -/
def environ.Destroy {Cfg Client Storage Ctx Params Mcfg W : Type}
    (be : Backend Cfg Client Storage Ctx Params Mcfg W) (env : environ Cfg Client Storage)
    (w : W) : DestroyResult Cfg Client Storage W :=
  match be.commonDestroy env w with
  | (err, w1) => { err := err, env := env, world := w1 }

/-- A run of `SetConfig` calls, each with its own key order and configuration, errors ignored. -/
def runSetConfigs {Cfg Client Storage Ctx Params Mcfg W : Type} (pkg : ConfigPkg Cfg)
    (be : Backend Cfg Client Storage Ctx Params Mcfg W) :
    List (List String × Cfg) → environ Cfg Client Storage → W → environ Cfg Client Storage × W
  | [], env, w => (env, w)
  | (order, cfg) :: rest, env, w =>
      let r := environ.SetConfig pkg be order env cfg w
      runSetConfigs pkg be rest r.env r.world

/-- Whether every call of a run of `SetConfig` calls returns an error. -/
def allFail {Cfg Client Storage Ctx Params Mcfg W : Type} (pkg : ConfigPkg Cfg)
    (be : Backend Cfg Client Storage Ctx Params Mcfg W) :
    List (List String × Cfg) → environ Cfg Client Storage → W → Bool
  | [], _, _ => true
  | (order, cfg) :: rest, env, w =>
      let r := environ.SetConfig pkg be order env cfg w
      r.err.isSome && allFail pkg be rest r.env r.world

/-- The pairing of the two handles: both absent, or both present with the storage handle being
what `newStorage` returned for that very client. -/
def handlesPaired {Cfg Client Storage Ctx Params Mcfg W : Type}
    (be : Backend Cfg Client Storage Ctx Params Mcfg W) (env : environ Cfg Client Storage) : Prop :=
  (env.client = none ∧ env.storage = none) ∨
  ∃ (client : Client) (storage : Storage) (ecfg : environConfig Cfg) (w : W),
    env.client = some client ∧ env.storage = some storage ∧
    (be.newStorage ecfg client w).1 = Except.ok storage

/-! ## urls.go -/

namespace Tools

/-- A `simplestreams.DataSource`: one built by `simplestreams.NewURLDataSource(url, verify)`, or a
source supplied by a provider. -/
inductive DataSource where
  | NewURLDataSource (baseURL : String) (hostnameVerification : Bool)
  | custom (id : String)
  deriving DecidableEq, Repr

/-- The constant `simplestreams.VerifySSLHostnames`. -/
def VerifySSLHostnames : Bool := true

/-- An environment as `GetMetadataSources` sees it: what `env.Config().ToolsURL()` returns, and
what `GetToolsSources()` returns when the environment implements `SupportsCustomSources`
(`none` when it does not). -/
structure ConfigGetter where
  ToolsURL : String × Bool
  GetToolsSources : Option (Except Error (List DataSource))

/-- The function `GetMetadataSources(env)`; `DefaultBaseURL` is the package variable. -/
def GetMetadataSources (DefaultBaseURL : String) (env : ConfigGetter) :
    Except Error (List DataSource) :=
  let sources : List DataSource := []
  let sources := match env.ToolsURL with
    | (userURL, true) => sources ++ [DataSource.NewURLDataSource userURL VerifySSLHostnames]
    | (_, false) => sources
  let afterCustom : Except Error (List DataSource) := match env.GetToolsSources with
    | some (Except.error err) => Except.error err
    | some (Except.ok customSources) => Except.ok (sources ++ customSources)
    | none => Except.ok sources
  match afterCustom with
  | Except.error err => Except.error err
  | Except.ok sources =>
      if DefaultBaseURL ≠ "" then
        Except.ok (sources ++ [DataSource.NewURLDataSource DefaultBaseURL VerifySSLHostnames])
      else Except.ok sources

end Tools

/-! ## The guard of the environment -/

namespace Locking

/-- The three lifecycle methods of `environ`. -/
inductive Method where
  | SetConfig
  | Bootstrap
  | Destroy
  deriving DecidableEq, Repr

/-- What a call does as far as the guard `env.lock` is concerned: it locks or unlocks the mutex,
or it enters or leaves the rest of its body. -/
inductive Event where
  | lock
  | enter
  | leave
  | unlock
  deriving DecidableEq, Repr

/-- The guard events of each method, read off the method bodies.  `SetConfig` starts with
`env.lock.Lock()` and defers `env.lock.Unlock()`; `Bootstrap` and `Destroy` contain no call on
`env.lock`. -/
def events : Method → List Event
  | Method.SetConfig => [Event.lock, Event.enter, Event.leave, Event.unlock]
  | Method.Bootstrap => [Event.enter, Event.leave]
  | Method.Destroy => [Event.enter, Event.leave]

/-- A caller running one method: `pc` counts the events it has executed. -/
structure Thread where
  method : Method
  pc : Nat
  deriving DecidableEq, Repr

/-- Two callers on one environment and the state of its mutex. -/
structure State where
  locked : Bool
  t1 : Thread
  t2 : Thread
  deriving DecidableEq, Repr

/-- Both callers about to start, the mutex free. -/
def initial (m1 m2 : Method) : State :=
  { locked := false, t1 := { method := m1, pc := 0 }, t2 := { method := m2, pc := 0 } }

/-- One event of a caller under `sync.Mutex`: `Lock` can only be executed while the mutex is
free and takes it, `Unlock` frees it.  `none` when the caller is blocked or has finished. -/
def stepThread (locked : Bool) (t : Thread) : Option (Bool × Thread) :=
  match (events t.method)[t.pc]? with
  | none => none
  | some Event.lock =>
      if locked then none else some (true, { t with pc := t.pc + 1 })
  | some Event.unlock => some (false, { t with pc := t.pc + 1 })
  | some Event.enter => some (locked, { t with pc := t.pc + 1 })
  | some Event.leave => some (locked, { t with pc := t.pc + 1 })

/-- One scheduling decision: the first caller (`true`) or the second one (`false`) is given the
turn; a caller that is blocked or has finished leaves the state as it is. -/
def step (s : State) (first : Bool) : State :=
  if first then
    match stepThread s.locked s.t1 with
    | some (l, t) => { s with locked := l, t1 := t }
    | none => s
  else
    match stepThread s.locked s.t2 with
    | some (l, t) => { s with locked := l, t2 := t }
    | none => s

/-- A schedule run from a state. -/
def run (s : State) : List Bool → State
  | [] => s
  | first :: rest => run (step s first) rest

/-- Whether a caller is inside the body of its method: the last event it executed is `enter`. -/
def inside (t : Thread) : Bool :=
  match t.pc with
  | 0 => false
  | n + 1 => decide ((events t.method)[n]? = some Event.enter)

/-- Whether a caller holds the mutex: it has executed more `lock` than `unlock` events. -/
def holds (t : Thread) : Bool :=
  decide (((events t.method).take t.pc).count Event.unlock <
    ((events t.method).take t.pc).count Event.lock)

end Locking

/-! ## steps124.go -/

namespace Upgrades

/-- The struct `upgradeStep`: a description, the targets it applies to, and the action, which
acts on the world `W`. -/
structure upgradeStep (Target Context W : Type) where
  description : String
  targets : List Target
  run : Context → W → Option Error × W

/-- The function `stateStepsFor124()`.  `DatabaseMaster` is the target constant of that name,
`State` is `context.State()` and `AddDefaultBlockDevicesDocs` is the function of that name in
package `state`. -/
def stateStepsFor124 {Target Context St W : Type} (DatabaseMaster : Target)
    (State : Context → St) (AddDefaultBlockDevicesDocs : St → W → Option Error × W) :
    List (upgradeStep Target Context W) :=
  let steps : List (upgradeStep Target Context W) := []
  steps ++
    [ { description := "add block device documents for existing machines",
        targets := [DatabaseMaster],
        run := fun context => AddDefaultBlockDevicesDocs (State context) } ]

/-- Modelled from the spec: the role filter of the upgrade engine, which is not part of the
embedded files.  It "filters its declared steps to those whose target-role set includes
nodeRole". -/
def stepsFor {Target Context W : Type} [DecidableEq Target] (nodeRole : Target)
    (steps : List (upgradeStep Target Context W)) : List (upgradeStep Target Context W) :=
  steps.filter (fun step => decide (nodeRole ∈ step.targets))

end Upgrades

/-! ## A demonstration backend -/

/-- A storage handle of the demonstration backend: its flag and the client it was built from. -/
structure DemoStorage where
  tmp : Bool
  owner : Nat
  deriving DecidableEq, Repr

/-- A backend for running scenarios.  The world is the log of collaborator calls, a client is
the length of the log when it was created, and a storage handle records its client.
`storageErr` makes `newStorage` fail, `finErr` makes the generic finalizer fail, `addrOk` is the
flag returned by `stateServerAddress`. -/
def demoBackend (storageErr finErr : Option Error) (addrOk : Bool) :
    Backend Attrs Nat DemoStorage Unit Unit Unit (List String) where
  newClient := fun _ w => (Except.ok w.length, w ++ ["newClient"])
  newStorage := fun _ client w =>
    match storageErr with
    | some err => (Except.error err, w ++ ["newStorage"])
    | none => (Except.ok { tmp := true, owner := client }, w ++ ["newStorage"])
  tmp := fun s => s.tmp
  stateServerAddress := fun _ w => (("i-0", "10.0.0.1", addrOk), w ++ ["stateServerAddress"])
  prepareStorage := fun _ _ _ w => (none, w ++ ["prepareStorage"])
  commonBootstrap := fun _ _ _ w =>
    (("amd64", "trusty", some (fun _ _ w1 => (finErr, w1 ++ ["finalizer"])), none),
      w ++ ["common.Bootstrap"])
  commonDestroy := fun _ w => (none, w ++ ["common.Destroy"])

/-- The demonstration environment after one successful `SetConfig` of `fullConfig`. -/
def demoEnv : environ Attrs Nat DemoStorage :=
  { name := "demo", ecfg := some fullValidated, client := some 0,
    storage := some { tmp := true, owner := 0 } }

/-- The configuration `fullConfig` with only `storage-port` changed. -/
def portChanged : Attrs := setAttr fullConfig "storage-port" (Value.int 8041)

/-- The configuration `fullConfig` with only `password` changed. -/
def passwordChanged : Attrs := setAttr fullConfig "password" (Value.str "c")

/-- The raw configuration of the scenario with an empty region. -/
def regionScenario : Attrs :=
  [ ("region", Value.str ""), ("username", Value.str "a"), ("password", Value.str "b") ]

/-- The raw configuration `regionScenario` once a `storage-auth-key` has been supplied, as
`prepareConfig` does for a configuration that lacks one. -/
def regionScenarioKeyed : Attrs := setAttr regionScenario "storage-auth-key" (Value.str "key")

/-- Modelled from the spec: the package `specPkg` with a schema pass that visits the declared
fields in the opposite order.  The schema pass is handed the map `configFields` and ranges over
it, and the order of a range over a map is unspecified; the error of the first field found at
fault is returned, and on success the resulting map does not depend on the order. -/
def specPkgReversed : ConfigPkg Attrs where
  Validate := fun _ _ => none
  UnknownAttrs := fun cfg => cfg
  ValidateUnknownAttrs := fun cfg fields defaults =>
    match validateFields cfg defaults fields.reverse with
    | Except.error err => Except.error err
    | Except.ok _ => validateFields cfg defaults fields
  Apply := fun cfg attrs => Except.ok (overlay cfg attrs)

/-- A raw configuration in which both credentials are numbers, not strings. -/
def illTypedCredentials : Attrs :=
  [ ("username", Value.int 5),
    ("password", Value.int 6),
    ("region", Value.str "zrh"),
    ("storage-port", Value.int 8040),
    ("storage-auth-key", Value.str "key") ]

/-- A raw configuration in which both credentials are empty. -/
def emptyCredentials : Attrs :=
  [ ("username", Value.str ""),
    ("password", Value.str ""),
    ("region", Value.str "zrh"),
    ("storage-port", Value.int 8040),
    ("storage-auth-key", Value.str "key") ]

/-- A key order of the range over `configFields` that visits `password` before `username`. -/
def orderPasswordFirst : List String :=
  ["password", "username", "region", "storage-port", "storage-auth-key"]

/-- A raw configuration without `storage-auth-key`. -/
def noKeyConfig : Attrs :=
  [ ("username", Value.str "a"),
    ("password", Value.str "b"),
    ("region", Value.str "zrh"),
    ("storage-port", Value.int 8040) ]

/-- A generator of identifiers for running scenarios: it returns a fixed identifier and logs the
call. -/
def demoNewUUID : List String → Except Error String × List String :=
  fun w => (Except.ok "6ba7b810-9dad-11d1-80b4-00c04fd430c8", w ++ ["NewUUID"])

/-- The configuration `fullConfig` without `username`. -/
def noUsername : Attrs :=
  [ ("password", Value.str "b"),
    ("region", Value.str "zrh"),
    ("storage-port", Value.int 8040),
    ("storage-auth-key", Value.str "key") ]

/-- A raw configuration without `region` and without `storage-port`. -/
def noRegionNoPort : Attrs :=
  [ ("username", Value.str "a"),
    ("password", Value.str "b"),
    ("storage-auth-key", Value.str "key") ]

/-! ## Properties of validateConfig -/

theorem checkEmpty_eq_none_iff (a : Attrs) (l : List String) :
    checkEmpty a l = none ↔ ∀ f ∈ l, attr a f ≠ some (Value.str "") := by
  induction l with
  | nil => simp [checkEmpty]
  | cons f fs ih =>
    by_cases h : attr a f = some (Value.str "")
    · simp [checkEmpty, h]
    · simp [checkEmpty, h, ih]

theorem checkEmpty_eq_some (a : Attrs) (l : List String) (e : Error)
    (h : checkEmpty a l = some e) :
    ∃ f ∈ l, attr a f = some (Value.str "") ∧ e = Error.emptyField f := by
  induction l with
  | nil => simp [checkEmpty] at h
  | cons f fs ih =>
    by_cases hf : attr a f = some (Value.str "")
    · simp [checkEmpty, hf] at h
      exact ⟨f, by simp, hf, h.symm⟩
    · simp [checkEmpty, hf] at h
      obtain ⟨g, hg, hge⟩ := ih h
      exact ⟨g, by simp [hg], hge⟩

theorem checkImmutable_eq_find (o n : Attrs) (l : List String) :
    checkImmutable o n l =
      (l.find? (fun f => decide (attr o f ≠ attr n f))).map
        (fun f => Error.immutableChanged f (attr o f) (attr n f)) := by
  induction l with
  | nil => simp [checkImmutable]
  | cons f fs ih =>
    by_cases h : attr o f = attr n f
    · simp [checkImmutable, h, ih]
    · simp [checkImmutable, h]

theorem checkImmutable_eq_none_iff (o n : Attrs) (l : List String) :
    checkImmutable o n l = none ↔ ∀ f ∈ l, attr o f = attr n f := by
  induction l with
  | nil => simp [checkImmutable]
  | cons f fs ih =>
    by_cases h : attr o f = attr n f
    · simp [checkImmutable, h, ih]
    · simp [checkImmutable, h]

/-- Once the juju-level check and the schema pass have succeeded with `newAttrs`, the rest of
`validateConfig` is the two loops followed by `Apply`. -/
theorem validateConfig_after_schema {Cfg : Type} (pkg : ConfigPkg Cfg) (order : List String)
    (cfg : Cfg) (old : Option (environConfig Cfg)) (newAttrs : Attrs)
    (hjuju : pkg.Validate cfg (old.map (fun o => o.Config)) = none)
    (hschema : pkg.ValidateUnknownAttrs cfg configFields configDefaultFields = Except.ok newAttrs) :
    validateConfig pkg order cfg old =
      match checkEmpty newAttrs order with
      | some err => Except.error err
      | none =>
        match (match old with
          | some o => checkImmutable o.attrs newAttrs configImmutableFields
          | none => none) with
        | some err => Except.error err
        | none =>
          match pkg.Apply cfg newAttrs with
          | Except.error err => Except.error err
          | Except.ok newCfg => Except.ok { Config := newCfg, attrs := newAttrs } := by
  cases old with
  | none =>
    simp only [Option.map] at hjuju
    simp only [validateConfig, hjuju, hschema]
  | some o =>
    simp only [Option.map] at hjuju
    simp only [validateConfig, hjuju, hschema]

/-- A successful `validateConfig` went through every stage. -/
theorem validateConfig_ok_inv {Cfg : Type} (pkg : ConfigPkg Cfg) (order : List String)
    (cfg : Cfg) (old : Option (environConfig Cfg)) (e : environConfig Cfg)
    (h : validateConfig pkg order cfg old = Except.ok e) :
    pkg.Validate cfg (old.map (fun o => o.Config)) = none ∧
    pkg.ValidateUnknownAttrs cfg configFields configDefaultFields = Except.ok e.attrs ∧
    checkEmpty e.attrs order = none ∧
    (∀ o, old = some o → checkImmutable o.attrs e.attrs configImmutableFields = none) ∧
    pkg.Apply cfg e.attrs = Except.ok e.Config := by
  have hj : pkg.Validate cfg (old.map (fun o => o.Config)) = none := by
    cases hv : pkg.Validate cfg (old.map (fun o => o.Config)) with
    | none => rfl
    | some err =>
      cases old <;> simp only [Option.map] at hv <;> simp [validateConfig, hv] at h
  cases hs : pkg.ValidateUnknownAttrs cfg configFields configDefaultFields with
  | error err =>
    cases old <;> simp only [Option.map] at hj <;> simp [validateConfig, hj, hs] at h
  | ok newAttrs =>
    rw [validateConfig_after_schema pkg order cfg old newAttrs hj hs] at h
    cases he : checkEmpty newAttrs order with
    | some err => simp [he] at h
    | none =>
      simp only [he] at h
      cases old with
      | none =>
        simp only at h
        cases ha : pkg.Apply cfg newAttrs with
        | error err => simp [ha] at h
        | ok newCfg =>
          simp only [ha, Except.ok.injEq] at h
          subst h
          exact ⟨hj, rfl, he, by simp, ha⟩
      | some o =>
        simp only at h
        cases hi : checkImmutable o.attrs newAttrs configImmutableFields with
        | some err => simp [hi] at h
        | none =>
          simp only [hi] at h
          cases ha : pkg.Apply cfg newAttrs with
          | error err => simp [ha] at h
          | ok newCfg =>
            simp only [ha, Except.ok.injEq] at h
            subst h
            refine ⟨hj, rfl, he, ?_, ha⟩
            intro o2 ho2
            cases ho2
            exact hi

theorem validateFields_present (raw : Attrs) (defaults : Defaults) (fields : Fields)
    (out : Attrs) (h : validateFields raw defaults fields = Except.ok out) :
    ∀ f ∈ fields.map Prod.fst, ∃ v, attr out f = some v := by
  induction fields generalizing out with
  | nil => simp
  | cons p rest ih =>
    obtain ⟨name, chk⟩ := p
    simp only [validateFields] at h
    split at h
    · simp at h
    · split at h
      · simp at h
      · rename_i v hv v' hv'
        cases hr : validateFields raw defaults rest with
        | error err => simp [hr] at h
        | ok out' =>
          simp only [hr, Except.ok.injEq] at h
          subst h
          intro f hf
          by_cases hnf : name = f
          · exact ⟨v', by simp [attr, hnf]⟩
          · have hf' : f ∈ rest.map Prod.fst := by
              simp only [List.map_cons, List.mem_cons] at hf
              rcases hf with hf | hf
              · exact absurd hf.symm hnf
              · exact hf
            obtain ⟨w, hw⟩ := ih out' hr f hf'
            exact ⟨w, by simp [attr, hnf, hw]⟩

theorem coerce_string_eq (v v' : Value) (h : coerce Checker.string v = some v') :
    ∃ s, v = Value.str s ∧ v' = Value.str s := by
  cases v with
  | str s =>
    simp only [coerce, Option.some.injEq] at h
    exact ⟨s, rfl, h.symm⟩
  | int n => simp [coerce] at h
  | bool b => simp [coerce] at h

theorem coerce_forceInt_eq (v v' : Value) (h : coerce Checker.forceInt v = some v') :
    ∃ n, v = Value.int n ∧ v' = Value.int n := by
  cases v with
  | str s => simp [coerce] at h
  | int n =>
    simp only [coerce, Option.some.injEq] at h
    exact ⟨n, rfl, h.symm⟩
  | bool b => simp [coerce] at h

/-- What a successful schema pass holds for a declared field: the coerced form of the given
value, or of the default when the field is missing. -/
theorem validateFields_attr (raw : Attrs) (defaults : Defaults) (fields : Fields) (out : Attrs)
    (h : validateFields raw defaults fields = Except.ok out)
    (hnodup : (fields.map Prod.fst).Nodup) (name : String) (chk : Checker)
    (hmem : (name, chk) ∈ fields) :
    ∃ v v', (attr raw name = some v ∨ (attr raw name = none ∧ attr defaults name = some v)) ∧
      coerce chk v = some v' ∧ attr out name = some v' := by
  induction fields generalizing out with
  | nil => simp at hmem
  | cons p rest ih =>
    obtain ⟨n, c⟩ := p
    simp only [validateFields] at h
    split at h
    · simp at h
    · rename_i v hv
      split at h
      · simp at h
      · rename_i v' hv'
        cases hr : validateFields raw defaults rest with
        | error err => simp [hr] at h
        | ok out' =>
          simp only [hr, Except.ok.injEq] at h
          subst h
          simp only [List.map_cons, List.nodup_cons] at hnodup
          have hgiven : attr raw n = some v ∨ (attr raw n = none ∧ attr defaults n = some v) := by
            cases hraw : attr raw n with
            | none =>
              rw [hraw] at hv
              exact Or.inr ⟨rfl, hv⟩
            | some x =>
              rw [hraw] at hv
              exact Or.inl hv
          rcases List.mem_cons.mp hmem with heq | hin
          · cases heq
            exact ⟨v, v', hgiven, hv', by simp [attr]⟩
          · have hne : n ≠ name := by
              intro hnn
              apply hnodup.1
              rw [hnn]
              exact List.mem_map.mpr ⟨(name, chk), hin, rfl⟩
            obtain ⟨x, x', hx, hc, ha⟩ := ih out' hr hnodup.2 hin
            exact ⟨x, x', hx, hc, by simp [attr, hne, ha]⟩

/-- C1: when the juju-level check and the schema pass succeed and no declared field is empty,
but some immutable field differs between the previous configuration and the validated
attributes, `validateConfig` returns an error and no configuration.  The error is the
immutable-field error for the first differing field in the order storage-port, storage-auth-key,
region, it carries the old and the new value of that field, and its text is
"<field>: cannot change from <old> to <new>". -/
theorem validateConfig_immutable_changed {Cfg : Type} (pkg : ConfigPkg Cfg) (order : List String)
    (cfg : Cfg) (old : environConfig Cfg) (newAttrs : Attrs)
    (hperm : order.Perm configFieldNames)
    (hjuju : pkg.Validate cfg (some old.Config) = none)
    (hschema : pkg.ValidateUnknownAttrs cfg configFields configDefaultFields = Except.ok newAttrs)
    (hne : ∀ f ∈ configFieldNames, attr newAttrs f ≠ some (Value.str ""))
    (hdiff : ∃ f ∈ configImmutableFields, attr old.attrs f ≠ attr newAttrs f) :
    ∃ f, configImmutableFields.find? (fun g => decide (attr old.attrs g ≠ attr newAttrs g)) = some f ∧
      validateConfig pkg order cfg (some old) =
        Except.error (Error.immutableChanged f (attr old.attrs f) (attr newAttrs f)) ∧
      (Error.immutableChanged f (attr old.attrs f) (attr newAttrs f)).message =
        f ++ ": cannot change from " ++ fmtV (attr old.attrs f) ++ " to " ++ fmtV (attr newAttrs f) := by
  have hempty : checkEmpty newAttrs order = none := by
    rw [checkEmpty_eq_none_iff]
    intro f hf
    exact hne f (hperm.mem_iff.mp hf)
  cases hfind : configImmutableFields.find? (fun g => decide (attr old.attrs g ≠ attr newAttrs g)) with
  | none =>
    exfalso
    obtain ⟨f, hf, hd⟩ := hdiff
    have := List.find?_eq_none.mp hfind f hf
    simp at this
    exact hd this
  | some f =>
    refine ⟨f, rfl, ?_, rfl⟩
    rw [validateConfig_after_schema pkg order cfg (some old) newAttrs hjuju hschema]
    simp only [hempty, checkImmutable_eq_find, hfind, Option.map]

/-- C1, scenario: the fully specified configuration re-validated with only `storage-port` changed
fails with the immutable-field error naming storage-port and both values. -/
theorem validateConfig_immutable_changed_witness :
    validateConfig specPkg configFieldNames portChanged (some fullValidated) =
        Except.error (Error.immutableChanged "storage-port" (some (Value.int 8040))
          (some (Value.int 8041))) ∧
      (Error.immutableChanged "storage-port" (some (Value.int 8040))
          (some (Value.int 8041))).message = "storage-port: cannot change from 8040 to 8041" := by
  obtain ⟨f, hf, hv, _⟩ := validateConfig_immutable_changed specPkg configFieldNames portChanged
    fullValidated portChanged (List.Perm.refl _) rfl rfl (by decide)
    ⟨"storage-port", by decide, by decide⟩
  have hfirst : configImmutableFields.find?
      (fun g => decide (attr fullValidated.attrs g ≠ attr portChanged g)) = some "storage-port" := by
    decide
  have hfeq : f = "storage-port" := by
    rw [hfirst] at hf
    exact (Option.some.inj hf).symm
  subst hfeq
  exact ⟨hv, by decide⟩

/-- C2, the scenario as stated: `validateConfig` on the raw configuration
{region: "", username: "a", password: "b"} is rejected by the schema pass with an error on the
missing storage-auth-key, not with an error on region. -/
theorem validateConfig_region_scenario_schema_error :
    validateConfig specPkg configFieldNames regionScenario none =
        Except.error (Error.schema "storage-auth-key" "string" none) ∧
      validateConfig specPkg configFieldNames regionScenario none ≠
        Except.error (Error.emptyField "region") ∧
      (Error.schema "storage-auth-key" "string" none).message =
        "storage-auth-key: expected string, got nothing" := by
  refine ⟨rfl, ?_, by decide⟩
  intro h
  have h2 : validateConfig specPkg configFieldNames regionScenario none =
      Except.error (Error.schema "storage-auth-key" "string" none) := rfl
  rw [h2] at h
  cases h

/-- C2, amended: for every key order of the range over `configFields`,
(1) when the juju-level check and the schema pass succeed and some declared field resolves to the
empty string, `validateConfig` fails with "<field>: must not be empty" for a declared field that
is empty, namely the first empty one in the key order;
(2) every configuration returned by a successful `validateConfig` has no declared field equal to
the empty string, and, the schema pass being the one of the spec, has every declared field
present. -/
theorem validateConfig_rejects_empty_field {Cfg : Type} (pkg : ConfigPkg Cfg)
    (order : List String) (cfg : Cfg) (old : Option (environConfig Cfg))
    (hperm : order.Perm configFieldNames) :
    (∀ newAttrs : Attrs,
      pkg.Validate cfg (old.map (fun o => o.Config)) = none →
      pkg.ValidateUnknownAttrs cfg configFields configDefaultFields = Except.ok newAttrs →
      (∃ f ∈ configFieldNames, attr newAttrs f = some (Value.str "")) →
      ∃ f ∈ configFieldNames, attr newAttrs f = some (Value.str "") ∧
        order.find? (fun g => decide (attr newAttrs g = some (Value.str ""))) = some f ∧
        validateConfig pkg order cfg old = Except.error (Error.emptyField f) ∧
        (Error.emptyField f).message = f ++ ": must not be empty") ∧
    (∀ e : environConfig Cfg, validateConfig pkg order cfg old = Except.ok e →
      (∀ f ∈ configFieldNames, attr e.attrs f ≠ some (Value.str "")) ∧
      (pkg.ValidateUnknownAttrs cfg configFields configDefaultFields =
          validateFields (pkg.UnknownAttrs cfg) configDefaultFields configFields →
        ∀ f ∈ configFieldNames, ∃ v, attr e.attrs f = some v ∧ v ≠ Value.str "")) := by
  constructor
  · intro newAttrs hjuju hschema hex
    rw [validateConfig_after_schema pkg order cfg old newAttrs hjuju hschema]
    cases hfind : order.find? (fun g => decide (attr newAttrs g = some (Value.str ""))) with
    | none =>
      exfalso
      obtain ⟨f, hf, hfe⟩ := hex
      have := List.find?_eq_none.mp hfind f (hperm.mem_iff.mpr hf)
      simp at this
      exact this hfe
    | some f =>
      have hmem : f ∈ order := List.mem_of_find?_eq_some hfind
      have hfe : attr newAttrs f = some (Value.str "") := by
        have := List.find?_some hfind
        simpa using this
      refine ⟨f, hperm.mem_iff.mp hmem, hfe, rfl, ?_, rfl⟩
      have hce : checkEmpty newAttrs order = some (Error.emptyField f) := by
        clear hmem hperm
        induction order with
        | nil => simp at hfind
        | cons g gs ih =>
          by_cases hg : attr newAttrs g = some (Value.str "")
          · simp [List.find?, hg] at hfind
            subst hfind
            simp [checkEmpty, hg]
          · simp [List.find?, hg] at hfind
            simp [checkEmpty, hg, ih hfind]
      simp only [hce]
  · intro e he
    obtain ⟨_, hs, hce, _, _⟩ := validateConfig_ok_inv pkg order cfg old e he
    have hne : ∀ f ∈ configFieldNames, attr e.attrs f ≠ some (Value.str "") := by
      intro f hf
      exact (checkEmpty_eq_none_iff e.attrs order).mp hce f (hperm.mem_iff.mpr hf)
    refine ⟨hne, ?_⟩
    intro hspec f hf
    rw [hspec] at hs
    obtain ⟨v, hv⟩ := validateFields_present _ _ _ _ hs f hf
    refine ⟨v, hv, ?_⟩
    intro hve
    exact hne f hf (by rw [hv, hve])

/-- C2, scenario: once a storage-auth-key is supplied, the raw configuration
{region: "", username: "a", password: "b"} is rejected with "region: must not be empty". -/
theorem validateConfig_rejects_empty_field_witness :
    validateConfig specPkg configFieldNames regionScenarioKeyed none =
        Except.error (Error.emptyField "region") ∧
      (Error.emptyField "region").message = "region: must not be empty" := by
  obtain ⟨f, _, _, hfind, hv, _⟩ :=
    (validateConfig_rejects_empty_field specPkg configFieldNames regionScenarioKeyed none
      (List.Perm.refl _)).1
      [ ("username", Value.str "a"), ("password", Value.str "b"), ("region", Value.str ""),
        ("storage-port", Value.int 8040), ("storage-auth-key", Value.str "key") ]
      rfl rfl ⟨"region", by decide, by decide⟩
  have hfirst : configFieldNames.find? (fun g => decide (attr
      [ ("username", Value.str "a"), ("password", Value.str "b"), ("region", Value.str ""),
        ("storage-port", Value.int 8040), ("storage-auth-key", Value.str "key") ] g =
      some (Value.str ""))) = some "region" := by
    decide
  have hfeq : f = "region" := by
    rw [hfirst] at hfind
    exact (Option.some.inj hfind).symm
  subst hfeq
  exact ⟨hv, by decide⟩

/-- Re-validation against a previous configuration that agrees on the immutable fields. -/
theorem validateConfig_revalidate {Cfg : Type} (pkg : ConfigPkg Cfg) (o1 o2 : List String)
    (newCfg : Cfg) (prev : Option (environConfig Cfg)) (old en : environConfig Cfg)
    (hp1 : o1.Perm configFieldNames) (hp2 : o2.Perm configFieldNames)
    (hnew : validateConfig pkg o1 newCfg prev = Except.ok en)
    (hjuju : pkg.Validate newCfg (some old.Config) = none)
    (hsame : ∀ f ∈ configImmutableFields, attr old.attrs f = attr en.attrs f) :
    validateConfig pkg o2 newCfg (some old) = Except.ok en := by
  obtain ⟨_, hs, hce, _, ha⟩ := validateConfig_ok_inv pkg o1 newCfg prev en hnew
  have hce2 : checkEmpty en.attrs o2 = none := by
    rw [checkEmpty_eq_none_iff] at hce ⊢
    intro f hf
    exact hce f (hp1.mem_iff.mpr (hp2.mem_iff.mp hf))
  have himm : checkImmutable old.attrs en.attrs configImmutableFields = none :=
    (checkImmutable_eq_none_iff _ _ _).mpr hsame
  rw [validateConfig_after_schema pkg o2 newCfg (some old) en.attrs hjuju hs]
  simp only [hce2, himm, ha]

/-- C3: let `new` be a configuration that validates on its own, giving `en`, and let `old` be a
previous configuration whose immutable fields (storage-port, storage-auth-key, region) carry the
same validated values, so that the two differ only in mutable fields.  When the juju-level check
accepts `new` against `old`, `validateConfig(new, old)` succeeds and returns exactly `en`: its
attributes are the validated attributes of `new`. -/
theorem validateConfig_mutable_change {Cfg : Type} (pkg : ConfigPkg Cfg) (o1 o2 : List String)
    (newCfg : Cfg) (old en : environConfig Cfg)
    (hp1 : o1.Perm configFieldNames) (hp2 : o2.Perm configFieldNames)
    (hnew : validateConfig pkg o1 newCfg none = Except.ok en)
    (hjuju : pkg.Validate newCfg (some old.Config) = none)
    (hsame : ∀ f ∈ configImmutableFields, attr old.attrs f = attr en.attrs f) :
    validateConfig pkg o2 newCfg (some old) = Except.ok en ∧
      ∀ e, validateConfig pkg o2 newCfg (some old) = Except.ok e → e.attrs = en.attrs := by
  have hres : validateConfig pkg o2 newCfg (some old) = Except.ok en :=
    validateConfig_revalidate pkg o1 o2 newCfg none old en hp1 hp2 hnew hjuju hsame
  refine ⟨hres, ?_⟩
  intro e he
  rw [hres] at he
  cases he
  rfl

/-- C3, scenario: the fully specified configuration with only the password changed validates
against the original and yields its own validated attributes. -/
theorem validateConfig_mutable_change_witness :
    validateConfig specPkg configFieldNames passwordChanged (some fullValidated) =
      Except.ok { Config := passwordChanged, attrs := passwordChanged } :=
  (validateConfig_mutable_change specPkg configFieldNames configFieldNames passwordChanged
    fullValidated { Config := passwordChanged, attrs := passwordChanged }
    (List.Perm.refl _) (List.Perm.refl _) rfl rfl (by decide)).1

/-! ## Properties of GetMetadataSources -/

namespace Tools

/-- C4: when `GetMetadataSources` succeeds, the list it returns is the concatenation, in this
order, of the source for the user-configured tools URL (if the configuration declares one), the
sources returned by `GetToolsSources` (if the environment implements the capability, in the
order returned), and the source for `DefaultBaseURL` (if it is not empty).  With an override
URL, no capability and a default URL the result is the override source followed by the default
source; with none of the three the result is the empty list and no error. -/
theorem GetMetadataSources_order (DefaultBaseURL : String) (env : ConfigGetter)
    (sources : List DataSource) (h : GetMetadataSources DefaultBaseURL env = Except.ok sources) :
    sources =
        (if env.ToolsURL.2 = true
          then [DataSource.NewURLDataSource env.ToolsURL.1 VerifySSLHostnames] else []) ++
        (match env.GetToolsSources with
          | some (Except.ok customSources) => customSources
          | _ => []) ++
        (if DefaultBaseURL ≠ ""
          then [DataSource.NewURLDataSource DefaultBaseURL VerifySSLHostnames] else []) ∧
      (∀ userURL : String, DefaultBaseURL ≠ "" →
        GetMetadataSources DefaultBaseURL { ToolsURL := (userURL, true), GetToolsSources := none } =
          Except.ok [DataSource.NewURLDataSource userURL VerifySSLHostnames,
            DataSource.NewURLDataSource DefaultBaseURL VerifySSLHostnames]) ∧
      (∀ s : String,
        GetMetadataSources "" { ToolsURL := (s, false), GetToolsSources := none } =
          Except.ok []) := by
  refine ⟨?_, ?_, ?_⟩
  · obtain ⟨⟨url, ok⟩, custom⟩ := env
    cases ok <;> rcases custom with _ | (err | cs) <;>
      by_cases hd : DefaultBaseURL = "" <;>
      first
        | (simp [GetMetadataSources, hd] at h; done)
        | (simp [GetMetadataSources, hd] at h; subst h; simp [hd])
  · intro userURL hd
    simp [GetMetadataSources, hd]
  · intro s
    simp [GetMetadataSources]

/-- C4, scenario: an override URL, two provider sources and a default URL give the four-element
list in the order override, provider sources, default; an override URL and a default URL alone
give exactly those two. -/
theorem GetMetadataSources_order_witness :
    GetMetadataSources "http://default"
        { ToolsURL := ("http://user", true),
          GetToolsSources := some (Except.ok [DataSource.custom "p1", DataSource.custom "p2"]) } =
      Except.ok [DataSource.NewURLDataSource "http://user" true, DataSource.custom "p1",
        DataSource.custom "p2", DataSource.NewURLDataSource "http://default" true] ∧
    [DataSource.NewURLDataSource "http://user" true, DataSource.custom "p1",
        DataSource.custom "p2", DataSource.NewURLDataSource "http://default" true] =
      [DataSource.NewURLDataSource "http://user" VerifySSLHostnames] ++
        [DataSource.custom "p1", DataSource.custom "p2"] ++
        [DataSource.NewURLDataSource "http://default" VerifySSLHostnames] ∧
    GetMetadataSources "http://default"
        { ToolsURL := ("http://override", true), GetToolsSources := none } =
      Except.ok [DataSource.NewURLDataSource "http://override" VerifySSLHostnames,
        DataSource.NewURLDataSource "http://default" VerifySSLHostnames] := by
  have h := GetMetadataSources_order "http://default"
    { ToolsURL := ("http://user", true),
      GetToolsSources := some (Except.ok [DataSource.custom "p1", DataSource.custom "p2"]) }
    [DataSource.NewURLDataSource "http://user" true, DataSource.custom "p1",
      DataSource.custom "p2", DataSource.NewURLDataSource "http://default" true] rfl
  exact ⟨rfl, h.1, h.2.1 "http://override" (by decide)⟩

/-- C5: `GetMetadataSources` returns the error `err` exactly when the environment implements
`SupportsCustomSources` and its `GetToolsSources` call fails with `err`; the result is then the
error alone, without any source.  An environment without the capability never causes an
error. -/
theorem GetMetadataSources_error_iff (DefaultBaseURL : String) (env : ConfigGetter) :
    (∀ err : Error, GetMetadataSources DefaultBaseURL env = Except.error err ↔
      env.GetToolsSources = some (Except.error err)) ∧
    (env.GetToolsSources = none →
      ∃ sources, GetMetadataSources DefaultBaseURL env = Except.ok sources) := by
  obtain ⟨⟨url, ok⟩, custom⟩ := env
  constructor
  · intro err
    cases ok <;> rcases custom with _ | (err2 | cs) <;>
      by_cases hd : DefaultBaseURL = "" <;>
      simp [GetMetadataSources, hd]
  · intro hnone
    simp only at hnone
    subst hnone
    cases ok <;> by_cases hd : DefaultBaseURL = "" <;> simp [GetMetadataSources, hd]

/-- C5, scenario: a failing `GetToolsSources` makes the whole resolution fail with that error,
although the override source had already been collected; without the capability the call
succeeds. -/
theorem GetMetadataSources_error_iff_witness :
    GetMetadataSources "http://default"
        { ToolsURL := ("http://user", true),
          GetToolsSources := some (Except.error (Error.ext "no sources")) } =
      Except.error (Error.ext "no sources") ∧
    ∃ sources, GetMetadataSources "http://default"
        { ToolsURL := ("http://user", true), GetToolsSources := none } = Except.ok sources :=
  ⟨((GetMetadataSources_error_iff "http://default"
      { ToolsURL := ("http://user", true),
        GetToolsSources := some (Except.error (Error.ext "no sources")) }).1
      (Error.ext "no sources")).mpr rfl,
   (GetMetadataSources_error_iff "http://default"
      { ToolsURL := ("http://user", true), GetToolsSources := none }).2 rfl⟩

end Tools

/-! ## Properties of the environment -/

section Environment

variable {Cfg Client Storage Ctx Params Mcfg W : Type}

/-- The five ways through `SetConfig`. -/
theorem SetConfig_cases (pkg : ConfigPkg Cfg) (be : Backend Cfg Client Storage Ctx Params Mcfg W)
    (order : List String) (env : environ Cfg Client Storage) (cfg : Cfg) (w : W) :
    (∃ e, validateConfig pkg order cfg env.ecfg = Except.error e ∧
      environ.SetConfig pkg be order env cfg w = { err := some e, env := env, world := w }) ∨
    (∃ ecfg e w1, validateConfig pkg order cfg env.ecfg = Except.ok ecfg ∧
      needsNewClient env ecfg = true ∧ be.newClient ecfg w = (Except.error e, w1) ∧
      environ.SetConfig pkg be order env cfg w = { err := some e, env := env, world := w1 }) ∨
    (∃ ecfg client w1 e w2, validateConfig pkg order cfg env.ecfg = Except.ok ecfg ∧
      needsNewClient env ecfg = true ∧ be.newClient ecfg w = (Except.ok client, w1) ∧
      be.newStorage ecfg client w1 = (Except.error e, w2) ∧
      environ.SetConfig pkg be order env cfg w = { err := some e, env := env, world := w2 }) ∨
    (∃ ecfg client w1 storage w2, validateConfig pkg order cfg env.ecfg = Except.ok ecfg ∧
      needsNewClient env ecfg = true ∧ be.newClient ecfg w = (Except.ok client, w1) ∧
      be.newStorage ecfg client w1 = (Except.ok storage, w2) ∧
      environ.SetConfig pkg be order env cfg w =
        { err := none,
          env := { env with client := some client, storage := some storage, ecfg := some ecfg },
          world := w2 }) ∨
    (∃ ecfg, validateConfig pkg order cfg env.ecfg = Except.ok ecfg ∧
      needsNewClient env ecfg = false ∧
      environ.SetConfig pkg be order env cfg w =
        { err := none, env := { env with ecfg := some ecfg }, world := w }) := by
  cases hv : validateConfig pkg order cfg env.ecfg with
  | error e =>
    left
    exact ⟨e, rfl, by simp [environ.SetConfig, hv]⟩
  | ok ecfg =>
    right
    cases hn : needsNewClient env ecfg with
    | false =>
      right; right; right
      exact ⟨ecfg, rfl, hn, by simp [environ.SetConfig, hv, hn]⟩
    | true =>
      rcases hc : be.newClient ecfg w with ⟨(e | client), w1⟩
      · left
        exact ⟨ecfg, e, w1, rfl, hn, hc, by simp [environ.SetConfig, hv, hn, hc]⟩
      · right
        rcases hs : be.newStorage ecfg client w1 with ⟨(e | storage), w2⟩
        · left
          exact ⟨ecfg, client, w1, e, w2, rfl, hn, hc, hs,
            by simp [environ.SetConfig, hv, hn, hc, hs]⟩
        · right; left
          exact ⟨ecfg, client, w1, storage, w2, rfl, hn, hc, hs,
            by simp [environ.SetConfig, hv, hn, hc, hs]⟩

/-- C6: `SetConfig` is atomic on failure.  Whenever it returns an error, the stored
configuration, the client and the storage handle are what they were before the call, and the
error is a validation error, or the error of `newClient`, or the error of `newStorage` called
after `newClient` had succeeded.  In none of these cases is the new client installed. -/
theorem SetConfig_error_keeps_environment (pkg : ConfigPkg Cfg)
    (be : Backend Cfg Client Storage Ctx Params Mcfg W) (order : List String)
    (env : environ Cfg Client Storage) (cfg : Cfg) (w : W) (e : Error)
    (h : (environ.SetConfig pkg be order env cfg w).err = some e) :
    (environ.SetConfig pkg be order env cfg w).env = env ∧
    (validateConfig pkg order cfg env.ecfg = Except.error e ∨
      ∃ ecfg, validateConfig pkg order cfg env.ecfg = Except.ok ecfg ∧
        ((be.newClient ecfg w).1 = Except.error e ∨
          ∃ client w1, be.newClient ecfg w = (Except.ok client, w1) ∧
            (be.newStorage ecfg client w1).1 = Except.error e)) := by
  rcases SetConfig_cases pkg be order env cfg w with
    ⟨e1, hv, hr⟩ | ⟨ecfg, e1, w1, hv, _, hc, hr⟩ | ⟨ecfg, client, w1, e1, w2, hv, _, hc, hs, hr⟩ |
    ⟨ecfg, client, w1, storage, w2, _, _, _, _, hr⟩ | ⟨ecfg, _, _, hr⟩
  · rw [hr] at h ⊢
    simp only [Option.some.injEq] at h
    subst h
    exact ⟨rfl, Or.inl hv⟩
  · rw [hr] at h ⊢
    simp only [Option.some.injEq] at h
    subst h
    exact ⟨rfl, Or.inr ⟨ecfg, hv, Or.inl (by rw [hc])⟩⟩
  · rw [hr] at h ⊢
    simp only [Option.some.injEq] at h
    subst h
    exact ⟨rfl, Or.inr ⟨ecfg, hv, Or.inr ⟨client, w1, hc, by rw [hs]⟩⟩⟩
  · rw [hr] at h
    simp at h
  · rw [hr] at h
    simp at h

/-- C6, scenario: on a fresh environment `newClient` succeeds and `newStorage` then fails; the
error is returned and the environment is still the fresh one, with no client installed. -/
theorem SetConfig_error_keeps_environment_witness :
    (environ.SetConfig specPkg (demoBackend (some (Error.ext "no storage")) none true)
        configFieldNames (environ.fresh "demo") fullConfig []).err =
      some (Error.ext "no storage") ∧
    (environ.SetConfig specPkg (demoBackend (some (Error.ext "no storage")) none true)
        configFieldNames (environ.fresh "demo") fullConfig []).world =
      ["newClient", "newStorage"] ∧
    (environ.SetConfig specPkg (demoBackend (some (Error.ext "no storage")) none true)
        configFieldNames (environ.fresh "demo") fullConfig []).env = environ.fresh "demo" :=
  ⟨rfl, rfl,
    (SetConfig_error_keeps_environment specPkg
      (demoBackend (some (Error.ext "no storage")) none true) configFieldNames
      (environ.fresh "demo") fullConfig [] (Error.ext "no storage") rfl).1⟩

/-- One call of `SetConfig` either keeps both handles or replaces both, the new storage handle
being what `newStorage` returned for the new client. -/
theorem SetConfig_handles_step (pkg : ConfigPkg Cfg)
    (be : Backend Cfg Client Storage Ctx Params Mcfg W) (order : List String)
    (env : environ Cfg Client Storage) (cfg : Cfg) (w : W) :
    ((environ.SetConfig pkg be order env cfg w).env.client = env.client ∧
      (environ.SetConfig pkg be order env cfg w).env.storage = env.storage) ∨
    ∃ ecfg client w1 storage w2,
      be.newClient ecfg w = (Except.ok client, w1) ∧
      be.newStorage ecfg client w1 = (Except.ok storage, w2) ∧
      (environ.SetConfig pkg be order env cfg w).env.client = some client ∧
      (environ.SetConfig pkg be order env cfg w).env.storage = some storage := by
  rcases SetConfig_cases pkg be order env cfg w with
    ⟨e1, _, hr⟩ | ⟨ecfg, e1, w1, _, _, _, hr⟩ | ⟨ecfg, client, w1, e1, w2, _, _, _, _, hr⟩ |
    ⟨ecfg, client, w1, storage, w2, _, _, hc, hs, hr⟩ | ⟨ecfg, _, _, hr⟩
  · rw [hr]; exact Or.inl ⟨rfl, rfl⟩
  · rw [hr]; exact Or.inl ⟨rfl, rfl⟩
  · rw [hr]; exact Or.inl ⟨rfl, rfl⟩
  · rw [hr]; exact Or.inr ⟨ecfg, client, w1, storage, w2, hc, hs, rfl, rfl⟩
  · rw [hr]; exact Or.inl ⟨rfl, rfl⟩

theorem SetConfig_keeps_paired (pkg : ConfigPkg Cfg)
    (be : Backend Cfg Client Storage Ctx Params Mcfg W) (order : List String)
    (env : environ Cfg Client Storage) (cfg : Cfg) (w : W) (h : handlesPaired be env) :
    handlesPaired be (environ.SetConfig pkg be order env cfg w).env := by
  rcases SetConfig_handles_step pkg be order env cfg w with
    ⟨hc, hs⟩ | ⟨ecfg, client, w1, storage, w2, _, hs, hc2, hs2⟩
  · unfold handlesPaired at h ⊢
    rw [hc, hs]
    exact h
  · exact Or.inr ⟨client, storage, ecfg, w1, hc2, hs2, by rw [hs]⟩

theorem runSetConfigs_keeps_paired (pkg : ConfigPkg Cfg)
    (be : Backend Cfg Client Storage Ctx Params Mcfg W) (calls : List (List String × Cfg))
    (env : environ Cfg Client Storage) (w : W) (h : handlesPaired be env) :
    handlesPaired be (runSetConfigs pkg be calls env w).1 := by
  induction calls generalizing env w with
  | nil => exact h
  | cons call rest ih =>
    obtain ⟨order, cfg⟩ := call
    simp only [runSetConfigs]
    exact ih _ _ (SetConfig_keeps_paired pkg be order env cfg w h)

/-- C7: after any sequence of `SetConfig` calls, successful or failing, on a freshly created
environment, the client and the storage handle are both absent or both present, and when
present the storage handle is what `newStorage` returned for that same client.  Every single
call keeps both handles or replaces both; it never replaces one of them alone. -/
theorem SetConfig_handles_paired (pkg : ConfigPkg Cfg)
    (be : Backend Cfg Client Storage Ctx Params Mcfg W) :
    (∀ (calls : List (List String × Cfg)) (name : String) (w : W),
      handlesPaired be (runSetConfigs pkg be calls (environ.fresh name) w).1) ∧
    (∀ (order : List String) (env : environ Cfg Client Storage) (cfg : Cfg) (w : W),
      ((environ.SetConfig pkg be order env cfg w).env.client = env.client ∧
        (environ.SetConfig pkg be order env cfg w).env.storage = env.storage) ∨
      ∃ ecfg client w1 storage w2,
        be.newClient ecfg w = (Except.ok client, w1) ∧
        be.newStorage ecfg client w1 = (Except.ok storage, w2) ∧
        (environ.SetConfig pkg be order env cfg w).env.client = some client ∧
        (environ.SetConfig pkg be order env cfg w).env.storage = some storage) := by
  constructor
  · intro calls name w
    exact runSetConfigs_keeps_paired pkg be calls _ w (Or.inl ⟨rfl, rfl⟩)
  · intro order env cfg w
    exact SetConfig_handles_step pkg be order env cfg w

/-- C8: `SetConfig` is idempotent.  When a first `SetConfig` of a configuration succeeds and the
juju-level check accepts that configuration against the one just stored, a second `SetConfig`
of the same configuration succeeds, leaves the environment (stored configuration, client and
storage handle) as the first call left it, and leaves the world untouched: neither `newClient`
nor `newStorage` is run by the second call. -/
theorem SetConfig_idempotent (pkg : ConfigPkg Cfg)
    (be : Backend Cfg Client Storage Ctx Params Mcfg W) (o1 o2 : List String)
    (env : environ Cfg Client Storage) (cfg : Cfg) (w : W)
    (r1 : SetConfigResult Cfg Client Storage W)
    (hp1 : o1.Perm configFieldNames) (hp2 : o2.Perm configFieldNames)
    (hr1 : environ.SetConfig pkg be o1 env cfg w = r1)
    (hok : r1.err = none)
    (hjuju : ∀ ecfg, r1.env.ecfg = some ecfg → pkg.Validate cfg (some ecfg.Config) = none) :
    environ.SetConfig pkg be o2 r1.env cfg r1.world =
        { err := none, env := r1.env, world := r1.world } ∧
      (environ.SetConfig pkg be o2 r1.env cfg r1.world).env.client = r1.env.client ∧
      (environ.SetConfig pkg be o2 r1.env cfg r1.world).env.storage = r1.env.storage := by
  have key : ∃ ecfg client, validateConfig pkg o1 cfg env.ecfg = Except.ok ecfg ∧
      r1.env.ecfg = some ecfg ∧ r1.env.client = some client := by
    rcases SetConfig_cases pkg be o1 env cfg w with
      ⟨e1, _, hr⟩ | ⟨ecfg, e1, w1, _, _, _, hr⟩ | ⟨ecfg, client, w1, e1, w2, _, _, _, _, hr⟩ |
      ⟨ecfg, client, w1, storage, w2, hv, _, _, _, hr⟩ | ⟨ecfg, hv, hn, hr⟩
    · rw [hr] at hr1; subst hr1; simp at hok
    · rw [hr] at hr1; subst hr1; simp at hok
    · rw [hr] at hr1; subst hr1; simp at hok
    · rw [hr] at hr1; subst hr1
      exact ⟨ecfg, client, hv, rfl, rfl⟩
    · rw [hr] at hr1; subst hr1
      cases hc : env.client with
      | none => simp [needsNewClient, hc] at hn
      | some client => exact ⟨ecfg, client, hv, rfl, rfl⟩
  obtain ⟨ecfg, client, hv, he, hc⟩ := key
  have hv2 : validateConfig pkg o2 cfg r1.env.ecfg = Except.ok ecfg := by
    rw [he]
    exact validateConfig_revalidate pkg o1 o2 cfg env.ecfg ecfg ecfg hp1 hp2 hv (hjuju ecfg he)
      (fun _ _ => rfl)
  have hn2 : needsNewClient r1.env ecfg = false := by
    simp [needsNewClient, hc, he, clientConfigChanged]
  have hres : environ.SetConfig pkg be o2 r1.env cfg r1.world =
      { err := none, env := r1.env, world := r1.world } := by
    simp only [environ.SetConfig, hv2, hn2]
    obtain ⟨err1, ⟨name, ecfg1, client1, storage1⟩, world1⟩ := r1
    simp only at he
    subst he
    rfl
  rw [hres]
  exact ⟨rfl, rfl, rfl⟩

/-- C8, scenario: the first `SetConfig` on a fresh environment creates client and storage; the
second one with the same configuration changes nothing and the call log stays as it was. -/
theorem SetConfig_idempotent_witness :
    environ.SetConfig specPkg (demoBackend none none true) configFieldNames
        (environ.fresh "demo") fullConfig [] =
      { err := none, env := demoEnv, world := ["newClient", "newStorage"] } ∧
    environ.SetConfig specPkg (demoBackend none none true) configFieldNames
        demoEnv fullConfig ["newClient", "newStorage"] =
      { err := none, env := demoEnv, world := ["newClient", "newStorage"] } :=
  ⟨rfl,
    (SetConfig_idempotent specPkg (demoBackend none none true) configFieldNames configFieldNames
      (environ.fresh "demo") fullConfig []
      { err := none, env := demoEnv, world := ["newClient", "newStorage"] }
      (List.Perm.refl _) (List.Perm.refl _) rfl rfl (fun _ _ => rfl)).1⟩

/-- C9, as stated, fails: after a successful `Destroy` a `SetConfig` on the same environment
succeeds, `Config` returns the stored configuration and `Bootstrap` returns a finalizer with a
nil error.  None of them reports a destroyed environment. -/
theorem Destroy_then_operations_succeed :
    (environ.Destroy (demoBackend none none true) demoEnv []).err = none ∧
    (environ.SetConfig specPkg (demoBackend none none true) configFieldNames
        (environ.Destroy (demoBackend none none true) demoEnv []).env passwordChanged
        (environ.Destroy (demoBackend none none true) demoEnv []).world).err = none ∧
    environ.Config (environ.Destroy (demoBackend none none true) demoEnv []).env =
      Outcome.returned fullConfig ∧
    ∃ F, environ.Bootstrap (demoBackend none none true)
        (environ.Destroy (demoBackend none none true) demoEnv []).env () ()
        (environ.Destroy (demoBackend none none true) demoEnv []).world =
      (BootstrapResult.started "amd64" "trusty" F, ["common.Destroy", "common.Bootstrap"]) :=
  ⟨rfl, rfl, rfl, _, rfl⟩

/-- C9, amended: `Destroy` returns exactly what `common.Destroy` returns and writes no field of
the environment.  The environment has no destroyed state, so after `Destroy` every `SetConfig`,
`Config` and `Bootstrap` call behaves as it would on the environment before `Destroy`. -/
theorem Destroy_keeps_environment (pkg : ConfigPkg Cfg)
    (be : Backend Cfg Client Storage Ctx Params Mcfg W) (env : environ Cfg Client Storage)
    (w : W) :
    (environ.Destroy be env w).err = (be.commonDestroy env w).1 ∧
    (environ.Destroy be env w).world = (be.commonDestroy env w).2 ∧
    (environ.Destroy be env w).env = env ∧
    (∀ (order : List String) (cfg : Cfg) (w1 : W),
      environ.SetConfig pkg be order (environ.Destroy be env w).env cfg w1 =
        environ.SetConfig pkg be order env cfg w1) ∧
    environ.Config (environ.Destroy be env w).env = environ.Config env ∧
    (∀ (ctx : Ctx) (params : Params) (w1 : W),
      environ.Bootstrap be (environ.Destroy be env w).env ctx params w1 =
        environ.Bootstrap be env ctx params w1) := by
  have henv : (environ.Destroy be env w).env = env := rfl
  refine ⟨rfl, rfl, henv, ?_, ?_, ?_⟩
  · intro order cfg w1
    rw [henv]
  · rw [henv]
  · intro ctx params w1
    rw [henv]

/-- The finalizer returned by `Bootstrap` does not return, whatever bound is put on the nesting
of its calls: each call starts by calling the closure again. -/
theorem returnedFinalizer_never_returns (be : Backend Cfg Client Storage Ctx Params Mcfg W)
    (depth : Nat) (env : environ Cfg Client Storage) (ctx : Ctx) (mcfg : Mcfg) (w : W) :
    returnedFinalizer be depth env ctx mcfg w = none := by
  induction depth with
  | zero => rfl
  | succ n ih => simp only [returnedFinalizer, newFinalizer, ih]

/-- C10, the defect: `Bootstrap` succeeds and the generic finalizer would fail with "generic
failed".  The finalizer that `Bootstrap` returns does not return for any bound on the nesting
of its calls, so it never returns that error.  Its body, run with the generic finalizer in the
variable `finalizer`, would return exactly that error with the generic finalizer as the only
call made, which is what the closure was written to do. -/
theorem Bootstrap_finalizer_recurses_on_generic_error :
    ∃ F, environ.Bootstrap (demoBackend none (some (Error.ext "generic failed")) true)
          demoEnv () () [] =
        (BootstrapResult.started "amd64" "trusty" F, ["common.Bootstrap"]) ∧
      (∀ depth, F depth demoEnv () () ["common.Bootstrap"] = none) ∧
      newFinalizer (demoBackend none (some (Error.ext "generic failed")) true)
          (genericFinalizer
            (some (fun _ _ w1 => (some (Error.ext "generic failed"), w1 ++ ["finalizer"]))))
          demoEnv () () ["common.Bootstrap"] =
        some (Outcome.returned (some (Error.ext "generic failed")),
          ["common.Bootstrap", "finalizer"]) :=
  ⟨returnedFinalizer (demoBackend none (some (Error.ext "generic failed")) true), rfl,
    fun depth => returnedFinalizer_never_returns _ depth demoEnv () () ["common.Bootstrap"],
    rfl⟩

/-- A failing `SetConfig` leaves the environment as it was. -/
theorem SetConfig_error_env (pkg : ConfigPkg Cfg)
    (be : Backend Cfg Client Storage Ctx Params Mcfg W) (order : List String)
    (env : environ Cfg Client Storage) (cfg : Cfg) (w : W)
    (h : (environ.SetConfig pkg be order env cfg w).err.isSome = true) :
    (environ.SetConfig pkg be order env cfg w).env = env := by
  rcases SetConfig_cases pkg be order env cfg w with
    ⟨e1, _, hr⟩ | ⟨ecfg, e1, w1, _, _, _, hr⟩ | ⟨ecfg, client, w1, e1, w2, _, _, _, _, hr⟩ |
    ⟨ecfg, client, w1, storage, w2, _, _, _, _, hr⟩ | ⟨ecfg, _, _, hr⟩
  · rw [hr]
  · rw [hr]
  · rw [hr]
  · rw [hr] at h; simp at h
  · rw [hr] at h; simp at h

/-- A successful `SetConfig` stored the configuration that `validateConfig` produced, and either
built both handles or kept both. -/
theorem SetConfig_ok_inv (pkg : ConfigPkg Cfg)
    (be : Backend Cfg Client Storage Ctx Params Mcfg W) (order : List String)
    (env : environ Cfg Client Storage) (cfg : Cfg) (w : W)
    (h : (environ.SetConfig pkg be order env cfg w).err = none) :
    ∃ ecfg, validateConfig pkg order cfg env.ecfg = Except.ok ecfg ∧
      (environ.SetConfig pkg be order env cfg w).env.ecfg = some ecfg ∧
      ((needsNewClient env ecfg = true ∧
          ∃ client w1 storage w2, be.newClient ecfg w = (Except.ok client, w1) ∧
            be.newStorage ecfg client w1 = (Except.ok storage, w2) ∧
            (environ.SetConfig pkg be order env cfg w).env.client = some client ∧
            (environ.SetConfig pkg be order env cfg w).env.storage = some storage ∧
            (environ.SetConfig pkg be order env cfg w).world = w2) ∨
        (needsNewClient env ecfg = false ∧
          (environ.SetConfig pkg be order env cfg w).env.client = env.client ∧
          (environ.SetConfig pkg be order env cfg w).env.storage = env.storage ∧
          (environ.SetConfig pkg be order env cfg w).world = w)) := by
  rcases SetConfig_cases pkg be order env cfg w with
    ⟨e1, _, hr⟩ | ⟨ecfg, e1, w1, _, _, _, hr⟩ | ⟨ecfg, client, w1, e1, w2, _, _, _, _, hr⟩ |
    ⟨ecfg, client, w1, storage, w2, hv, hn, hc, hs, hr⟩ | ⟨ecfg, hv, hn, hr⟩
  · rw [hr] at h; simp at h
  · rw [hr] at h; simp at h
  · rw [hr] at h; simp at h
  · rw [hr]
    exact ⟨ecfg, hv, rfl, Or.inl ⟨hn, client, w1, storage, w2, hc, hs, rfl, rfl, rfl⟩⟩
  · rw [hr]
    exact ⟨ecfg, hv, rfl, Or.inr ⟨hn, rfl, rfl, rfl⟩⟩

/-- Any `SetConfig` keeps a stored configuration stored. -/
theorem SetConfig_ecfg_isSome (pkg : ConfigPkg Cfg)
    (be : Backend Cfg Client Storage Ctx Params Mcfg W) (order : List String)
    (env : environ Cfg Client Storage) (cfg : Cfg) (w : W) (h : env.ecfg.isSome = true) :
    (environ.SetConfig pkg be order env cfg w).env.ecfg.isSome = true := by
  rcases SetConfig_cases pkg be order env cfg w with
    ⟨e1, _, hr⟩ | ⟨ecfg, e1, w1, _, _, _, hr⟩ | ⟨ecfg, client, w1, e1, w2, _, _, _, _, hr⟩ |
    ⟨ecfg, client, w1, storage, w2, _, _, _, _, hr⟩ | ⟨ecfg, _, _, hr⟩
  · rw [hr]; exact h
  · rw [hr]; exact h
  · rw [hr]; exact h
  · rw [hr]; rfl
  · rw [hr]; rfl

theorem runSetConfigs_ecfg_isSome (pkg : ConfigPkg Cfg)
    (be : Backend Cfg Client Storage Ctx Params Mcfg W) (calls : List (List String × Cfg))
    (env : environ Cfg Client Storage) (w : W) (h : env.ecfg.isSome = true) :
    (runSetConfigs pkg be calls env w).1.ecfg.isSome = true := by
  induction calls generalizing env w with
  | nil => exact h
  | cons call rest ih =>
    obtain ⟨order, cfg⟩ := call
    simp only [runSetConfigs]
    exact ih _ _ (SetConfig_ecfg_isSome pkg be order env cfg w h)

theorem runSetConfigs_allFail (pkg : ConfigPkg Cfg)
    (be : Backend Cfg Client Storage Ctx Params Mcfg W) (calls : List (List String × Cfg))
    (env : environ Cfg Client Storage) (w : W) (h : allFail pkg be calls env w = true) :
    (runSetConfigs pkg be calls env w).1 = env := by
  induction calls generalizing env w with
  | nil => rfl
  | cons call rest ih =>
    obtain ⟨order, cfg⟩ := call
    simp only [allFail, Bool.and_eq_true] at h
    simp only [runSetConfigs]
    rw [ih _ _ h.2]
    exact SetConfig_error_env pkg be order env cfg w h.1

theorem runSetConfigs_append (pkg : ConfigPkg Cfg)
    (be : Backend Cfg Client Storage Ctx Params Mcfg W) (a b : List (List String × Cfg))
    (env : environ Cfg Client Storage) (w : W) :
    runSetConfigs pkg be (a ++ b) env w =
      runSetConfigs pkg be b (runSetConfigs pkg be a env w).1 (runSetConfigs pkg be a env w).2 := by
  induction a generalizing env w with
  | nil => rfl
  | cons call rest ih =>
    obtain ⟨order, cfg⟩ := call
    simp only [List.cons_append, runSetConfigs]
    exact ih _ _

/-- C11: `Config` returns the last successfully stored configuration.  Take any run of
`SetConfig` calls that contains a success: calls `before`, then the most recent successful call
`(order, cfg)`, then calls `after` that all fail.  After the whole run `Config()` returns the
configuration that `validateConfig` produced in that successful call, and the environment is
exactly what the successful call left: the failed calls had no effect. -/
theorem Config_returns_last_stored (pkg : ConfigPkg Cfg)
    (be : Backend Cfg Client Storage Ctx Params Mcfg W)
    (before after : List (List String × Cfg)) (order : List String) (cfg : Cfg)
    (env0 : environ Cfg Client Storage) (w0 : W)
    (mid : environ Cfg Client Storage × W) (r : SetConfigResult Cfg Client Storage W)
    (hmid : runSetConfigs pkg be before env0 w0 = mid)
    (hr : environ.SetConfig pkg be order mid.1 cfg mid.2 = r)
    (hok : r.err = none)
    (hfail : allFail pkg be after r.env r.world = true) :
    ∃ ecfg, validateConfig pkg order cfg mid.1.ecfg = Except.ok ecfg ∧
      environ.Config (runSetConfigs pkg be (before ++ (order, cfg) :: after) env0 w0).1 =
        Outcome.returned ecfg.Config ∧
      (runSetConfigs pkg be (before ++ (order, cfg) :: after) env0 w0).1 = r.env := by
  subst hr
  obtain ⟨ecfg, hv, he, _⟩ := SetConfig_ok_inv pkg be order mid.1 cfg mid.2 hok
  have hrun : (runSetConfigs pkg be (before ++ (order, cfg) :: after) env0 w0).1 =
      (environ.SetConfig pkg be order mid.1 cfg mid.2).env := by
    rw [runSetConfigs_append, hmid]
    simp only [runSetConfigs]
    exact runSetConfigs_allFail pkg be after _ _ hfail
  refine ⟨ecfg, hv, ?_, hrun⟩
  rw [hrun]
  simp only [environ.Config, he]

/-- C11, scenario: on a fresh environment a `SetConfig` of the full configuration succeeds and a
later `SetConfig` that changes `storage-port` fails; `Config()` still returns the full
configuration. -/
theorem Config_returns_last_stored_witness :
    environ.Config (runSetConfigs specPkg (demoBackend none none true)
        ([] ++ (configFieldNames, fullConfig) :: [(configFieldNames, portChanged)])
        (environ.fresh "demo") []).1 = Outcome.returned fullConfig := by
  obtain ⟨ecfg, hv, hc, _⟩ := Config_returns_last_stored specPkg (demoBackend none none true)
    [] [(configFieldNames, portChanged)] configFieldNames fullConfig (environ.fresh "demo") []
    (environ.fresh "demo", [])
    { err := none, env := demoEnv, world := ["newClient", "newStorage"] }
    rfl rfl rfl rfl
  have hv2 : validateConfig specPkg configFieldNames fullConfig none =
      Except.ok fullValidated := rfl
  have he : ecfg = fullValidated := by
    have h3 := hv2.symm.trans hv
    simp only [Except.ok.injEq] at h3
    exact h3.symm
  rw [hc, he]
  rfl

/-- Under the schema pass of the spec a validated configuration holds a string region. -/
theorem validateConfig_region_str (pkg : ConfigPkg Cfg)
    (hspec : ∀ c, pkg.ValidateUnknownAttrs c configFields configDefaultFields =
      validateFields (pkg.UnknownAttrs c) configDefaultFields configFields)
    (order : List String) (cfg : Cfg) (old : Option (environConfig Cfg)) (e : environConfig Cfg)
    (h : validateConfig pkg order cfg old = Except.ok e) :
    ∃ region, attr e.attrs "region" = some (Value.str region) := by
  obtain ⟨_, hs, _, _, _⟩ := validateConfig_ok_inv pkg order cfg old e h
  rw [hspec] at hs
  obtain ⟨v, v', _, hc, ha⟩ := validateFields_attr _ _ _ _ hs (by decide) "region"
    Checker.string (by decide)
  obtain ⟨region, _, hv'⟩ := coerce_string_eq v v' hc
  exact ⟨region, by rw [ha, hv']⟩

theorem runSetConfigs_region_str (pkg : ConfigPkg Cfg)
    (be : Backend Cfg Client Storage Ctx Params Mcfg W)
    (hspec : ∀ c, pkg.ValidateUnknownAttrs c configFields configDefaultFields =
      validateFields (pkg.UnknownAttrs c) configDefaultFields configFields)
    (calls : List (List String × Cfg)) (env : environ Cfg Client Storage) (w : W)
    (h : ∀ e, env.ecfg = some e → ∃ region, attr e.attrs "region" = some (Value.str region)) :
    ∀ e, (runSetConfigs pkg be calls env w).1.ecfg = some e →
      ∃ region, attr e.attrs "region" = some (Value.str region) := by
  induction calls generalizing env w with
  | nil => exact h
  | cons call rest ih =>
    obtain ⟨order, cfg⟩ := call
    simp only [runSetConfigs]
    apply ih
    intro e he
    cases herr : (environ.SetConfig pkg be order env cfg w).err with
    | some err =>
      have henv := SetConfig_error_env pkg be order env cfg w (by rw [herr]; rfl)
      rw [henv] at he
      exact h e he
    | none =>
      obtain ⟨ecfg, hv, he2, _⟩ := SetConfig_ok_inv pkg be order env cfg w herr
      rw [he2] at he
      cases he
      exact validateConfig_region_str pkg hspec order cfg env.ecfg _ hv

theorem needsNewClient_iff (env : environ Cfg Client Storage) (ecfg : environConfig Cfg) :
    needsNewClient env ecfg = true ↔
      (env.client = none ∨ env.ecfg = none ∨
        ∃ old, env.ecfg = some old ∧ clientConfigChanged old ecfg = true) := by
  obtain ⟨name, oecfg, oclient, ostorage⟩ := env
  cases oclient with
  | none => simp [needsNewClient]
  | some c =>
    cases oecfg with
    | none => simp [needsNewClient]
    | some old => simp [needsNewClient]

/-- C15: a successful `SetConfig` stores the newly validated configuration.  It builds a new
client and a new storage handle, both from the newly validated configuration and the storage
from the new client, when no client exists yet, or no configuration is stored yet, or
`clientConfigChanged` reports a difference between the stored and the new configuration.
Otherwise it keeps both handles and runs no constructor (the world is untouched). -/
theorem SetConfig_success_handles (pkg : ConfigPkg Cfg)
    (be : Backend Cfg Client Storage Ctx Params Mcfg W) (order : List String)
    (env : environ Cfg Client Storage) (cfg : Cfg) (w : W)
    (r : SetConfigResult Cfg Client Storage W)
    (hr : environ.SetConfig pkg be order env cfg w = r) (hok : r.err = none) :
    ∃ ecfg, validateConfig pkg order cfg env.ecfg = Except.ok ecfg ∧
      r.env.ecfg = some ecfg ∧
      ((env.client = none ∨ env.ecfg = none ∨
          ∃ old, env.ecfg = some old ∧ clientConfigChanged old ecfg = true) →
        ∃ client w1 storage w2, be.newClient ecfg w = (Except.ok client, w1) ∧
          be.newStorage ecfg client w1 = (Except.ok storage, w2) ∧
          r.env.client = some client ∧ r.env.storage = some storage ∧ r.world = w2) ∧
      (¬ (env.client = none ∨ env.ecfg = none ∨
          ∃ old, env.ecfg = some old ∧ clientConfigChanged old ecfg = true) →
        r.env.client = env.client ∧ r.env.storage = env.storage ∧ r.world = w) := by
  subst hr
  obtain ⟨ecfg, hv, he, hcase⟩ := SetConfig_ok_inv pkg be order env cfg w hok
  refine ⟨ecfg, hv, he, ?_, ?_⟩
  · intro hcond
    have hn : needsNewClient env ecfg = true := (needsNewClient_iff env ecfg).mpr hcond
    rcases hcase with ⟨_, hbuilt⟩ | ⟨hn2, _⟩
    · exact hbuilt
    · rw [hn] at hn2
      cases hn2
  · intro hcond
    rcases hcase with ⟨hn, _⟩ | ⟨_, hkept⟩
    · exact absurd ((needsNewClient_iff env ecfg).mp hn) hcond
    · exact hkept

/-- C15, scenario: on the demonstration environment a `SetConfig` with a changed password
succeeds, stores the new configuration and replaces both handles by a new client and a storage
handle built from that client. -/
theorem SetConfig_success_handles_witness :
    environ.SetConfig specPkg (demoBackend none none true) configFieldNames demoEnv
        passwordChanged ["newClient", "newStorage"] =
      { err := none,
        env := { name := "demo",
                 ecfg := some { Config := passwordChanged, attrs := passwordChanged },
                 client := some 2, storage := some { tmp := true, owner := 2 } },
        world := ["newClient", "newStorage", "newClient", "newStorage"] } ∧
    ∃ ecfg, validateConfig specPkg configFieldNames passwordChanged demoEnv.ecfg =
        Except.ok ecfg ∧
      (environ.SetConfig specPkg (demoBackend none none true) configFieldNames demoEnv
        passwordChanged ["newClient", "newStorage"]).env.ecfg = some ecfg := by
  obtain ⟨ecfg, hv, he, _⟩ := SetConfig_success_handles specPkg (demoBackend none none true)
    configFieldNames demoEnv passwordChanged ["newClient", "newStorage"] _ rfl rfl
  exact ⟨rfl, ecfg, hv, he⟩

/-- C19: `Config()` and `Region()` on an environment without a stored configuration are nil
dereferences, and `Config()` returns a value exactly when a configuration is stored.  A run of
`SetConfig` calls on a fresh environment in which no call succeeds leaves the stored
configuration nil.  Once a `SetConfig` has succeeded, the stored configuration is non-nil after
every further run of `SetConfig` calls, successful or not, and `Config()` returns a value; when
the schema pass is the one of the spec, the stored region is a string and `Region()` returns as
well. -/
theorem Config_Region_defined_when_configured (pkg : ConfigPkg Cfg)
    (be : Backend Cfg Client Storage Ctx Params Mcfg W)
    (ResolveEndpoint : String → Except Error String) :
    (∀ env : environ Cfg Client Storage, env.ecfg = none →
      environ.Config env = Outcome.panicked ∧
      environ.Region ResolveEndpoint env = Outcome.panicked) ∧
    (∀ env : environ Cfg Client Storage,
      (∃ c, environ.Config env = Outcome.returned c) ↔ env.ecfg ≠ none) ∧
    (∀ (calls : List (List String × Cfg)) (name : String) (w : W),
      allFail pkg be calls (environ.fresh name) w = true →
      (runSetConfigs pkg be calls (environ.fresh name) w).1.ecfg = none) ∧
    (∀ (order : List String) (env : environ Cfg Client Storage) (cfg : Cfg) (w : W)
      (later : List (List String × Cfg)),
      (environ.SetConfig pkg be order env cfg w).err = none →
      (runSetConfigs pkg be later (environ.SetConfig pkg be order env cfg w).env
          (environ.SetConfig pkg be order env cfg w).world).1.ecfg ≠ none ∧
      ∃ c, environ.Config (runSetConfigs pkg be later
          (environ.SetConfig pkg be order env cfg w).env
          (environ.SetConfig pkg be order env cfg w).world).1 = Outcome.returned c) ∧
    ((∀ c, pkg.ValidateUnknownAttrs c configFields configDefaultFields =
        validateFields (pkg.UnknownAttrs c) configDefaultFields configFields) →
      ∀ (calls : List (List String × Cfg)) (name : String) (w : W),
        (runSetConfigs pkg be calls (environ.fresh name) w).1.ecfg ≠ none →
        ∃ spec, environ.Region ResolveEndpoint
          (runSetConfigs pkg be calls (environ.fresh name) w).1 = Outcome.returned spec) := by
  refine ⟨?_, ?_, ?_, ?_, ?_⟩
  · intro env he
    simp [environ.Config, environ.Region, he]
  · intro env
    cases he : env.ecfg with
    | none => simp [environ.Config, he]
    | some e => simp [environ.Config, he]
  · intro calls name w hfail
    rw [runSetConfigs_allFail pkg be calls _ w hfail]
    rfl
  · intro order env cfg w later hok
    obtain ⟨ecfg, _, he, _⟩ := SetConfig_ok_inv pkg be order env cfg w hok
    have hsome := runSetConfigs_ecfg_isSome pkg be later
      (environ.SetConfig pkg be order env cfg w).env
      (environ.SetConfig pkg be order env cfg w).world (by rw [he]; rfl)
    cases hfin : (runSetConfigs pkg be later (environ.SetConfig pkg be order env cfg w).env
        (environ.SetConfig pkg be order env cfg w).world).1.ecfg with
    | none => rw [hfin] at hsome; simp at hsome
    | some e => exact ⟨by simp, e.Config, by simp [environ.Config, hfin]⟩
  · intro hspec calls name w hne
    have hinv := runSetConfigs_region_str pkg be hspec calls (environ.fresh name) w
      (by intro e he; cases he)
    cases hfin : (runSetConfigs pkg be calls (environ.fresh name) w).1.ecfg with
    | none => exact absurd hfin hne
    | some e =>
      obtain ⟨region, hregion⟩ := hinv e hfin
      exact ⟨environ.cloudSpec ResolveEndpoint region,
        by simp only [environ.Region, hfin, environConfig.region, hregion]⟩

/-- C19, scenario: on the fresh demonstration environment `Config()` and `Region()` are nil
dereferences; after a successful `SetConfig` followed by a failing one `Config()` returns a
configuration. -/
theorem Config_Region_defined_when_configured_witness :
    environ.Config (environ.fresh "demo" : environ Attrs Nat DemoStorage) = Outcome.panicked ∧
    environ.Region (fun region => Except.ok region)
      (environ.fresh "demo" : environ Attrs Nat DemoStorage) = Outcome.panicked ∧
    (environ.SetConfig specPkg (demoBackend none none true) configFieldNames
      (environ.fresh "demo") fullConfig []).err = none ∧
    ∃ c, environ.Config (runSetConfigs specPkg (demoBackend none none true)
        [(configFieldNames, portChanged)]
        (environ.SetConfig specPkg (demoBackend none none true) configFieldNames
          (environ.fresh "demo") fullConfig []).env
        (environ.SetConfig specPkg (demoBackend none none true) configFieldNames
          (environ.fresh "demo") fullConfig []).world).1 = Outcome.returned c :=
  ⟨((Config_Region_defined_when_configured specPkg (demoBackend none none true)
      (fun region => Except.ok region)).1 (environ.fresh "demo") rfl).1,
   ((Config_Region_defined_when_configured specPkg (demoBackend none none true)
      (fun region => Except.ok region)).1 (environ.fresh "demo") rfl).2,
   rfl,
   ((Config_Region_defined_when_configured specPkg (demoBackend none none true)
      (fun region => Except.ok region)).2.2.2.1 configFieldNames (environ.fresh "demo")
      fullConfig [] [(configFieldNames, portChanged)] rfl).2⟩

/-- C16, the defect: `Bootstrap` succeeds, the generic finalizer would succeed, the storage is a
temporary one and the state server address is not available.  The finalizer that `Bootstrap`
returns does not return for any bound on the nesting of its calls, so it reaches none of the
follow-up branches; the same holds with a storage that is not temporary.  Its body, run with the
generic finalizer in the variable `finalizer`, would return the address-unavailable error right
after the address query, which is what the closure was written to do. -/
theorem Bootstrap_finalizer_recurses_before_follow_up :
    ∃ F, environ.Bootstrap (demoBackend none none false) demoEnv () () [] =
        (BootstrapResult.started "amd64" "trusty" F, ["common.Bootstrap"]) ∧
      (∀ depth, F depth demoEnv () () ["common.Bootstrap"] = none) ∧
      (∀ depth, F depth { demoEnv with storage := some { tmp := false, owner := 0 } } () ()
        ["common.Bootstrap"] = none) ∧
      newFinalizer (demoBackend none none false)
          (genericFinalizer (some (fun _ _ w1 => (none, w1 ++ ["finalizer"]))))
          demoEnv () () ["common.Bootstrap"] =
        some (Outcome.returned (some Error.addressUnavailable),
          ["common.Bootstrap", "finalizer", "stateServerAddress"]) ∧
      newFinalizer (demoBackend none none false)
          (genericFinalizer (some (fun _ _ w1 => (none, w1 ++ ["finalizer"]))))
          { demoEnv with storage := some { tmp := false, owner := 0 } } () ()
          ["common.Bootstrap"] =
        some (Outcome.returned none, ["common.Bootstrap", "finalizer"]) :=
  ⟨returnedFinalizer (demoBackend none none false), rfl,
    fun depth => returnedFinalizer_never_returns _ depth demoEnv () () ["common.Bootstrap"],
    fun depth => returnedFinalizer_never_returns _ depth _ () () ["common.Bootstrap"],
    rfl, rfl⟩

end Environment

/-! ## Re-entrancy of validateConfig -/

/-- The stages of `validateConfig` before the loops do not depend on the key order. -/
theorem validateConfig_early {Cfg : Type} (pkg : ConfigPkg Cfg) (order : List String) (cfg : Cfg)
    (old : Option (environConfig Cfg)) (err : Error) :
    (pkg.Validate cfg (old.map (fun o => o.Config)) = some err →
      validateConfig pkg order cfg old = Except.error err) ∧
    (pkg.Validate cfg (old.map (fun o => o.Config)) = none →
      pkg.ValidateUnknownAttrs cfg configFields configDefaultFields = Except.error err →
      validateConfig pkg order cfg old = Except.error err) := by
  constructor
  · intro hv
    cases old <;> simp only [Option.map] at hv <;> simp [validateConfig, hv]
  · intro hv hs
    cases old <;> simp only [Option.map] at hv <;> simp [validateConfig, hv, hs]

/-- A success does not depend on the key order. -/
theorem validateConfig_order_ok {Cfg : Type} (pkg : ConfigPkg Cfg) (o1 o2 : List String)
    (cfg : Cfg) (old : Option (environConfig Cfg)) (e : environConfig Cfg)
    (hp1 : o1.Perm configFieldNames) (hp2 : o2.Perm configFieldNames)
    (h : validateConfig pkg o1 cfg old = Except.ok e) :
    validateConfig pkg o2 cfg old = Except.ok e := by
  obtain ⟨hj, hs, hce, himm, ha⟩ := validateConfig_ok_inv pkg o1 cfg old e h
  have hce2 : checkEmpty e.attrs o2 = none := by
    rw [checkEmpty_eq_none_iff] at hce ⊢
    intro f hf
    exact hce f (hp1.mem_iff.mpr (hp2.mem_iff.mp hf))
  rw [validateConfig_after_schema pkg o2 cfg old e.attrs hj hs]
  cases old with
  | none => simp only [hce2, ha]
  | some o => simp only [hce2, himm o rfl, ha]

/-- C12, as stated, fails: with both credentials empty, two runs of `validateConfig` on the same
input that differ only in the order in which the range visits the keys of `configFields`
return different errors, one naming username and the other password. -/
theorem validateConfig_not_reentrant :
    orderPasswordFirst.Perm configFieldNames ∧
    validateConfig specPkg configFieldNames emptyCredentials none =
      Except.error (Error.emptyField "username") ∧
    validateConfig specPkg orderPasswordFirst emptyCredentials none =
      Except.error (Error.emptyField "password") ∧
    validateConfig specPkg configFieldNames emptyCredentials none ≠
      validateConfig specPkg orderPasswordFirst emptyCredentials none ∧
    (Error.emptyField "username").message ≠ (Error.emptyField "password").message := by
  refine ⟨by decide, rfl, rfl, ?_, by decide⟩
  intro h
  have h1 : validateConfig specPkg configFieldNames emptyCredentials none =
      Except.error (Error.emptyField "username") := rfl
  have h2 : validateConfig specPkg orderPasswordFirst emptyCredentials none =
      Except.error (Error.emptyField "password") := rfl
  rw [h1, h2] at h
  simp only [Except.error.injEq, Error.emptyField.injEq] at h
  exact absurd h (by decide)

/-- A success carries over from one run to another whose collaborators succeed where those of
the first do. -/
theorem validateConfig_ok_transfer {Cfg : Type} (pkg1 pkg2 : ConfigPkg Cfg) (o1 o2 : List String)
    (cfg : Cfg) (old : Option (environConfig Cfg)) (e : environConfig Cfg)
    (hp1 : o1.Perm configFieldNames) (hp2 : o2.Perm configFieldNames)
    (hjuju : pkg1.Validate cfg (old.map (fun o => o.Config)) = none →
      pkg2.Validate cfg (old.map (fun o => o.Config)) = none)
    (hschema : ∀ a, pkg1.ValidateUnknownAttrs cfg configFields configDefaultFields = Except.ok a →
      pkg2.ValidateUnknownAttrs cfg configFields configDefaultFields = Except.ok a)
    (happly : ∀ a c, pkg1.Apply cfg a = Except.ok c → pkg2.Apply cfg a = Except.ok c)
    (h : validateConfig pkg1 o1 cfg old = Except.ok e) :
    validateConfig pkg2 o2 cfg old = Except.ok e := by
  obtain ⟨hj, hs, hce, himm, ha⟩ := validateConfig_ok_inv pkg1 o1 cfg old e h
  have hce2 : checkEmpty e.attrs o2 = none := by
    rw [checkEmpty_eq_none_iff] at hce ⊢
    intro f hf
    exact hce f (hp1.mem_iff.mpr (hp2.mem_iff.mp hf))
  rw [validateConfig_after_schema pkg2 o2 cfg old e.attrs (hjuju hj) (hschema _ hs)]
  cases old with
  | none => simp only [hce2, happly _ _ ha]
  | some o => simp only [hce2, himm o rfl, happly _ _ ha]

/-- C12, amended: two runs of `validateConfig` on the same configuration and the same previous
configuration.  Each run has its own key order for the range over `configFields` and its own
collaborators `pkg1`, `pkg2`; the collaborators of the two runs succeed on the same inputs with
the same results, while the errors they report may differ, because the schema pass ranges over
the map `configFields` as well.
(1) The runs agree on success and then return the same configuration.
(2) When one run fails the other fails too.
(3) Once the juju-level check and the schema pass have succeeded: if some declared field is
empty, both runs fail with a must-not-be-empty error, each naming an empty declared field, and
both name the same field when only one declared field is empty; if no declared field is empty
and an immutable field differs from the previous configuration, both runs fail with the same
error, naming the first differing field in the order of `configImmutableFields`. -/
theorem validateConfig_reentrant {Cfg : Type} (pkg1 pkg2 : ConfigPkg Cfg) (o1 o2 : List String)
    (cfg : Cfg) (old : Option (environConfig Cfg))
    (hp1 : o1.Perm configFieldNames) (hp2 : o2.Perm configFieldNames)
    (hjuju : pkg1.Validate cfg (old.map (fun o => o.Config)) = none ↔
      pkg2.Validate cfg (old.map (fun o => o.Config)) = none)
    (hschema : ∀ a, pkg1.ValidateUnknownAttrs cfg configFields configDefaultFields = Except.ok a ↔
      pkg2.ValidateUnknownAttrs cfg configFields configDefaultFields = Except.ok a)
    (happly : ∀ a c, pkg1.Apply cfg a = Except.ok c ↔ pkg2.Apply cfg a = Except.ok c) :
    (∀ e, validateConfig pkg1 o1 cfg old = Except.ok e ↔
      validateConfig pkg2 o2 cfg old = Except.ok e) ∧
    (∀ err1, validateConfig pkg1 o1 cfg old = Except.error err1 →
      ∃ err2, validateConfig pkg2 o2 cfg old = Except.error err2) ∧
    (∀ newAttrs, pkg1.Validate cfg (old.map (fun o => o.Config)) = none →
      pkg1.ValidateUnknownAttrs cfg configFields configDefaultFields = Except.ok newAttrs →
      (∀ f ∈ configFieldNames, attr newAttrs f = some (Value.str "") →
        ∃ g1 ∈ configFieldNames, ∃ g2 ∈ configFieldNames,
          attr newAttrs g1 = some (Value.str "") ∧ attr newAttrs g2 = some (Value.str "") ∧
          validateConfig pkg1 o1 cfg old = Except.error (Error.emptyField g1) ∧
          validateConfig pkg2 o2 cfg old = Except.error (Error.emptyField g2) ∧
          ((∀ g ∈ configFieldNames, attr newAttrs g = some (Value.str "") → g = f) →
            g1 = f ∧ g2 = f)) ∧
      ((∀ f ∈ configFieldNames, attr newAttrs f ≠ some (Value.str "")) →
        ∀ o f, old = some o →
          configImmutableFields.find? (fun g => decide (attr o.attrs g ≠ attr newAttrs g)) =
            some f →
          validateConfig pkg1 o1 cfg old =
            Except.error (Error.immutableChanged f (attr o.attrs f) (attr newAttrs f)) ∧
          validateConfig pkg2 o2 cfg old =
            Except.error (Error.immutableChanged f (attr o.attrs f) (attr newAttrs f)))) := by
  have hok : ∀ e, validateConfig pkg1 o1 cfg old = Except.ok e ↔
      validateConfig pkg2 o2 cfg old = Except.ok e := by
    intro e
    constructor
    · exact validateConfig_ok_transfer pkg1 pkg2 o1 o2 cfg old e hp1 hp2 hjuju.mp
        (fun a => (hschema a).mp) (fun a c => (happly a c).mp)
    · exact validateConfig_ok_transfer pkg2 pkg1 o2 o1 cfg old e hp2 hp1 hjuju.mpr
        (fun a => (hschema a).mpr) (fun a c => (happly a c).mpr)
  refine ⟨hok, ?_, ?_⟩
  · intro err1 h1
    cases h2 : validateConfig pkg2 o2 cfg old with
    | error err2 => exact ⟨err2, rfl⟩
    | ok e =>
      rw [(hok e).mpr h2] at h1
      cases h1
  · intro newAttrs hj1 hs1
    have hr1 := validateConfig_after_schema pkg1 o1 cfg old newAttrs hj1 hs1
    have hr2 := validateConfig_after_schema pkg2 o2 cfg old newAttrs (hjuju.mp hj1)
      ((hschema newAttrs).mp hs1)
    constructor
    · intro f hf hfe
      cases hc1 : checkEmpty newAttrs o1 with
      | none =>
        exact absurd hfe ((checkEmpty_eq_none_iff newAttrs o1).mp hc1 f (hp1.mem_iff.mpr hf))
      | some e1 =>
        cases hc2 : checkEmpty newAttrs o2 with
        | none =>
          exact absurd hfe ((checkEmpty_eq_none_iff newAttrs o2).mp hc2 f (hp2.mem_iff.mpr hf))
        | some e2 =>
          obtain ⟨g1, hg1, hge1, he1⟩ := checkEmpty_eq_some newAttrs o1 e1 hc1
          obtain ⟨g2, hg2, hge2, he2⟩ := checkEmpty_eq_some newAttrs o2 e2 hc2
          refine ⟨g1, hp1.mem_iff.mp hg1, g2, hp2.mem_iff.mp hg2, hge1, hge2, ?_, ?_, ?_⟩
          · rw [hr1, hc1, he1]
          · rw [hr2, hc2, he2]
          · intro huniq
            exact ⟨huniq g1 (hp1.mem_iff.mp hg1) hge1, huniq g2 (hp2.mem_iff.mp hg2) hge2⟩
    · intro hne o f hold hfind
      have hc1 : checkEmpty newAttrs o1 = none := by
        rw [checkEmpty_eq_none_iff]
        intro g hg
        exact hne g (hp1.mem_iff.mp hg)
      have hc2 : checkEmpty newAttrs o2 = none := by
        rw [checkEmpty_eq_none_iff]
        intro g hg
        exact hne g (hp2.mem_iff.mp hg)
      subst hold
      constructor
      · rw [hr1]
        simp only [hc1, checkImmutable_eq_find, hfind, Option.map]
      · rw [hr2]
        simp only [hc2, checkImmutable_eq_find, hfind, Option.map]

/-- C12, scenario: two runs whose schema passes visit the fields in opposite orders.  With both
credentials ill-typed both runs fail, the first on username and the second on password.  With
the region as the only empty field both runs fail with the same error, naming region. -/
theorem validateConfig_reentrant_witness :
    validateConfig specPkg configFieldNames illTypedCredentials none =
      Except.error (Error.schema "username" "string" (some (Value.int 5))) ∧
    validateConfig specPkgReversed orderPasswordFirst illTypedCredentials none =
      Except.error (Error.schema "password" "string" (some (Value.int 6))) ∧
    (Error.schema "username" "string" (some (Value.int 5))).message =
      "username: expected string, got int(5)" ∧
    (∃ err2, validateConfig specPkgReversed orderPasswordFirst illTypedCredentials none =
      Except.error err2) ∧
    validateConfig specPkg configFieldNames regionScenarioKeyed none =
      Except.error (Error.emptyField "region") ∧
    validateConfig specPkgReversed orderPasswordFirst regionScenarioKeyed none =
      Except.error (Error.emptyField "region") := by
  have hperm : orderPasswordFirst.Perm configFieldNames := by decide
  have hbad := (validateConfig_reentrant specPkg specPkgReversed configFieldNames
    orderPasswordFirst illTypedCredentials none (List.Perm.refl _) hperm
    ⟨fun _ => rfl, fun _ => rfl⟩
    (by
      intro a
      have h1 : specPkg.ValidateUnknownAttrs illTypedCredentials configFields
          configDefaultFields =
          Except.error (Error.schema "username" "string" (some (Value.int 5))) := rfl
      have h2 : specPkgReversed.ValidateUnknownAttrs illTypedCredentials configFields
          configDefaultFields =
          Except.error (Error.schema "password" "string" (some (Value.int 6))) := rfl
      rw [h1, h2]
      constructor <;> intro h <;> cases h)
    (fun _ _ => Iff.rfl)).2.1
    (Error.schema "username" "string" (some (Value.int 5))) rfl
  have hs1 : specPkg.ValidateUnknownAttrs regionScenarioKeyed configFields
      configDefaultFields =
      Except.ok [ ("username", Value.str "a"), ("password", Value.str "b"),
        ("region", Value.str ""), ("storage-port", Value.int 8040),
        ("storage-auth-key", Value.str "key") ] := rfl
  have hs2 : specPkgReversed.ValidateUnknownAttrs regionScenarioKeyed configFields
      configDefaultFields =
      Except.ok [ ("username", Value.str "a"), ("password", Value.str "b"),
        ("region", Value.str ""), ("storage-port", Value.int 8040),
        ("storage-auth-key", Value.str "key") ] := rfl
  obtain ⟨g1, _, g2, _, _, _, hrun1, hrun2, hsame⟩ :=
    ((validateConfig_reentrant specPkg specPkgReversed configFieldNames orderPasswordFirst
      regionScenarioKeyed none (List.Perm.refl _) hperm ⟨fun _ => rfl, fun _ => rfl⟩
      (by intro a; rw [hs1, hs2]) (fun _ _ => Iff.rfl)).2.2 _ rfl hs1).1
      "region" (by decide) (by decide)
  obtain ⟨hg1, hg2⟩ := hsame (by decide)
  subst hg1
  subst hg2
  exact ⟨rfl, rfl, by decide, hbad, hrun1, hrun2⟩

/-! ## Properties of prepareConfig -/

theorem attr_setAttr_self (m : Attrs) (k : String) (v : Value) :
    attr (setAttr m k v) k = some v := by
  induction m with
  | nil => simp [setAttr, attr]
  | cons p rest ih =>
    obtain ⟨k', v'⟩ := p
    by_cases h : k' = k
    · simp [setAttr, attr, h]
    · simp [setAttr, attr, h, ih]

theorem attr_setAttr_ne (m : Attrs) (k k2 : String) (v : Value) (hne : k2 ≠ k) :
    attr (setAttr m k v) k2 = attr m k2 := by
  induction m with
  | nil =>
    have hne2 : ¬ k = k2 := fun h => hne h.symm
    simp [setAttr, attr, hne2]
  | cons p rest ih =>
    obtain ⟨k', v'⟩ := p
    by_cases h : k' = k
    · have hne2 : ¬ k = k2 := fun h2 => hne h2.symm
      simp [setAttr, attr, h, hne2]
    · by_cases h2 : k' = k2
      · subst h2
        simp [setAttr, attr, h]
      · simp [setAttr, attr, h, h2, ih]

theorem mem_keys_setAttr (m : Attrs) (k k2 : String) (v : Value) :
    k2 ∈ (setAttr m k v).map Prod.fst ↔ k2 = k ∨ k2 ∈ m.map Prod.fst := by
  induction m with
  | nil => simp [setAttr]
  | cons p rest ih =>
    obtain ⟨k', v'⟩ := p
    by_cases h : k' = k
    · subst h
      simp [setAttr]
    · simp only [setAttr, h, if_false, List.map_cons, List.mem_cons, ih]
      constructor
      · rintro (h1 | h1 | h1)
        · exact Or.inr (Or.inl h1)
        · exact Or.inl h1
        · exact Or.inr (Or.inr h1)
      · rintro (h1 | h1 | h1)
        · exact Or.inr (Or.inl h1)
        · exact Or.inl h1
        · exact Or.inr (Or.inr h1)

theorem nodup_keys_setAttr (m : Attrs) (k : String) (v : Value)
    (h : (m.map Prod.fst).Nodup) : ((setAttr m k v).map Prod.fst).Nodup := by
  induction m with
  | nil => simp [setAttr]
  | cons p rest ih =>
    obtain ⟨k', v'⟩ := p
    simp only [List.map_cons, List.nodup_cons] at h
    by_cases hk : k' = k
    · subst hk
      simp only [setAttr, if_true, List.map_cons, List.nodup_cons]
      exact h
    · simp only [setAttr, hk, if_false, List.map_cons, List.nodup_cons]
      refine ⟨?_, ih h.2⟩
      intro hmem
      rcases (mem_keys_setAttr rest k k' v).mp hmem with h1 | h1
      · exact hk h1
      · exact h.1 h1

theorem attr_eq_none_of_not_mem (m : Attrs) (k : String) (h : k ∉ m.map Prod.fst) :
    attr m k = none := by
  induction m with
  | nil => simp [attr]
  | cons p rest ih =>
    obtain ⟨k', v'⟩ := p
    simp only [List.map_cons, List.mem_cons, not_or] at h
    have hne : ¬ k' = k := fun h2 => h.1 h2.symm
    simp [attr, hne, ih h.2]

theorem mem_keys_of_attr (m : Attrs) (k : String) (h : attr m k ≠ none) :
    k ∈ m.map Prod.fst := by
  by_contra hn
  exact h (attr_eq_none_of_not_mem m k hn)

/-- Reading an overlay: a key written by `attrs` reads as written, any other key reads as in
the base. -/
theorem attr_overlay (base attrs : Attrs) (k : String) (h : (attrs.map Prod.fst).Nodup) :
    attr (overlay base attrs) k =
      match attr attrs k with
      | some v => some v
      | none => attr base k := by
  induction attrs generalizing base with
  | nil => simp [overlay, attr]
  | cons p rest ih =>
    obtain ⟨k', v'⟩ := p
    simp only [List.map_cons, List.nodup_cons] at h
    simp only [overlay]
    rw [ih _ h.2]
    by_cases hk : k' = k
    · subst hk
      simp [attr, attr_eq_none_of_not_mem rest k' h.1, attr_setAttr_self]
    · have hk2 : k ≠ k' := fun h2 => hk h2.symm
      simp [attr, hk, attr_setAttr_ne base k' k v' hk2]

/-- The overlay law holds for the `Apply` of `specPkg`. -/
theorem specPkg_apply_law (c a c' : Attrs) (hnodup : (a.map Prod.fst).Nodup)
    (happly : specPkg.Apply c a = Except.ok c') (k : String) :
    attr (specPkg.UnknownAttrs c') k =
      match attr a k with
      | some v => some v
      | none => attr (specPkg.UnknownAttrs c) k := by
  simp only [specPkg, Except.ok.injEq] at happly
  subst happly
  exact attr_overlay c a k hnodup

/-- C13: `prepareConfig` injects the generated secret only when it is absent.  `Apply` is taken
to return a configuration whose provider attributes are those of the receiver overlaid with the
attributes given (`hlaw`), and the attributes of `cfg` form a map (`hmap`).

(1) When the attributes of `cfg` lack storage-auth-key: if the generator fails, that error is
returned and no configuration; if it yields `uuid`, the result is what `Apply` returns for the
attributes with storage-auth-key set to `uuid`, and a configuration so returned has
storage-auth-key equal to `uuid` and every other attribute as in `cfg`.
(2) When the attributes of `cfg` contain storage-auth-key: the generator is not run (the world
is untouched), and a configuration returned has all attributes, storage-auth-key included, as
in `cfg`.
(3) Applying `prepareConfig` to a configuration it returned does not run the generator and
keeps the key. -/
theorem prepareConfig_injects_key {Cfg W : Type} (pkg : ConfigPkg Cfg)
    (NewUUID : W → Except Error String × W) (cfg : Cfg) (w : W)
    (hmap : ((pkg.UnknownAttrs cfg).map Prod.fst).Nodup)
    (hlaw : ∀ (c : Cfg) (a : Attrs) (c' : Cfg), (a.map Prod.fst).Nodup →
      (∀ k, attr a k ≠ none → k = "storage-auth-key" ∨ attr (pkg.UnknownAttrs c) k ≠ none) →
      pkg.Apply c a = Except.ok c' →
      ∀ k, attr (pkg.UnknownAttrs c') k =
        match attr a k with
        | some v => some v
        | none => attr (pkg.UnknownAttrs c) k) :
    (attr (pkg.UnknownAttrs cfg) "storage-auth-key" = none →
      (∀ e w1, NewUUID w = (Except.error e, w1) →
        prepareConfig pkg NewUUID cfg w = (Except.error e, w1)) ∧
      (∀ uuid w1, NewUUID w = (Except.ok uuid, w1) →
        prepareConfig pkg NewUUID cfg w =
          (pkg.Apply cfg (setAttr (pkg.UnknownAttrs cfg) "storage-auth-key" (Value.str uuid)),
            w1) ∧
        ∀ c1, (prepareConfig pkg NewUUID cfg w).1 = Except.ok c1 →
          attr (pkg.UnknownAttrs c1) "storage-auth-key" = some (Value.str uuid) ∧
          ∀ k, k ≠ "storage-auth-key" →
            attr (pkg.UnknownAttrs c1) k = attr (pkg.UnknownAttrs cfg) k)) ∧
    (∀ v, attr (pkg.UnknownAttrs cfg) "storage-auth-key" = some v →
      prepareConfig pkg NewUUID cfg w = (pkg.Apply cfg (pkg.UnknownAttrs cfg), w) ∧
      ∀ c1, (prepareConfig pkg NewUUID cfg w).1 = Except.ok c1 →
        attr (pkg.UnknownAttrs c1) "storage-auth-key" = some v ∧
        ∀ k, attr (pkg.UnknownAttrs c1) k = attr (pkg.UnknownAttrs cfg) k) ∧
    (∀ c1, (prepareConfig pkg NewUUID cfg w).1 = Except.ok c1 →
      ∃ v, attr (pkg.UnknownAttrs c1) "storage-auth-key" = some v ∧
        ∀ w2, (prepareConfig pkg NewUUID c1 w2).2 = w2 ∧
          (((pkg.UnknownAttrs c1).map Prod.fst).Nodup →
            ∀ c2, (prepareConfig pkg NewUUID c1 w2).1 = Except.ok c2 →
              attr (pkg.UnknownAttrs c2) "storage-auth-key" = some v)) := by
  -- reading a configuration returned for attributes that extend those of the receiver
  have hsame : ∀ (c c1 : Cfg), ((pkg.UnknownAttrs c).map Prod.fst).Nodup →
      pkg.Apply c (pkg.UnknownAttrs c) = Except.ok c1 →
      ∀ k, attr (pkg.UnknownAttrs c1) k = attr (pkg.UnknownAttrs c) k := by
    intro c c1 hnd happly k
    rw [hlaw c (pkg.UnknownAttrs c) c1 hnd (fun k hk => Or.inr hk) happly k]
    cases attr (pkg.UnknownAttrs c) k <;> rfl
  have hpresent : ∀ (c : Cfg) (v : Value) (w2 : W),
      attr (pkg.UnknownAttrs c) "storage-auth-key" = some v →
      prepareConfig pkg NewUUID c w2 = (pkg.Apply c (pkg.UnknownAttrs c), w2) := by
    intro c v w2 hv
    simp only [prepareConfig, hv]
  have habsent : attr (pkg.UnknownAttrs cfg) "storage-auth-key" = none →
      ∀ uuid w1, NewUUID w = (Except.ok uuid, w1) →
        prepareConfig pkg NewUUID cfg w =
          (pkg.Apply cfg (setAttr (pkg.UnknownAttrs cfg) "storage-auth-key" (Value.str uuid)),
            w1) ∧
        ∀ c1, (prepareConfig pkg NewUUID cfg w).1 = Except.ok c1 →
          attr (pkg.UnknownAttrs c1) "storage-auth-key" = some (Value.str uuid) ∧
          ∀ k, k ≠ "storage-auth-key" →
            attr (pkg.UnknownAttrs c1) k = attr (pkg.UnknownAttrs cfg) k := by
    intro hnone uuid w1 hu
    have hrun : prepareConfig pkg NewUUID cfg w =
        (pkg.Apply cfg (setAttr (pkg.UnknownAttrs cfg) "storage-auth-key" (Value.str uuid)),
          w1) := by
      simp only [prepareConfig, hnone, hu]
    refine ⟨hrun, ?_⟩
    intro c1 hc1
    rw [hrun] at hc1
    have hread := hlaw cfg _ c1
      (nodup_keys_setAttr (pkg.UnknownAttrs cfg) "storage-auth-key" (Value.str uuid) hmap)
      (by
        intro k hk
        by_cases hkk : k = "storage-auth-key"
        · exact Or.inl hkk
        · rw [attr_setAttr_ne _ _ _ _ hkk] at hk
          exact Or.inr hk)
      hc1
    constructor
    · rw [hread, attr_setAttr_self]
    · intro k hk
      rw [hread, attr_setAttr_ne _ _ _ _ hk]
      cases attr (pkg.UnknownAttrs cfg) k <;> rfl
  refine ⟨?_, ?_, ?_⟩
  · intro hnone
    refine ⟨?_, habsent hnone⟩
    intro e w1 hu
    simp only [prepareConfig, hnone, hu]
  · intro v hv
    refine ⟨hpresent cfg v w hv, ?_⟩
    intro c1 hc1
    rw [hpresent cfg v w hv] at hc1
    have hall := hsame cfg c1 hmap hc1
    exact ⟨by rw [hall, hv], hall⟩
  · intro c1 hc1
    have hkey : ∃ v, attr (pkg.UnknownAttrs c1) "storage-auth-key" = some v := by
      cases hk : attr (pkg.UnknownAttrs cfg) "storage-auth-key" with
      | some v =>
        have hc1b := hc1
        rw [hpresent cfg v w hk] at hc1b
        exact ⟨v, by rw [hsame cfg c1 hmap hc1b, hk]⟩
      | none =>
        rcases hu : NewUUID w with ⟨(e | uuid), w1⟩
        · have hfail : prepareConfig pkg NewUUID cfg w = (Except.error e, w1) := by
            simp only [prepareConfig, hk, hu]
          rw [hfail] at hc1
          cases hc1
        · exact ⟨Value.str uuid, ((habsent hk uuid w1 hu).2 c1 hc1).1⟩
    obtain ⟨v, hv⟩ := hkey
    refine ⟨v, hv, ?_⟩
    intro w2
    rw [hpresent c1 v w2 hv]
    refine ⟨rfl, ?_⟩
    intro hnd c2 hc2
    rw [hsame c1 c2 hnd hc2, hv]

/-- C13, scenario: for a configuration without storage-auth-key the generator is run once and
its identifier is stored under storage-auth-key; `prepareConfig` applied to the result does not
run the generator again and returns the same configuration. -/
theorem prepareConfig_injects_key_witness :
    prepareConfig specPkg demoNewUUID noKeyConfig [] =
      (Except.ok (noKeyConfig ++
        [("storage-auth-key", Value.str "6ba7b810-9dad-11d1-80b4-00c04fd430c8")]),
        ["NewUUID"]) ∧
    prepareConfig specPkg demoNewUUID (noKeyConfig ++
        [("storage-auth-key", Value.str "6ba7b810-9dad-11d1-80b4-00c04fd430c8")]) ["NewUUID"] =
      (Except.ok (noKeyConfig ++
        [("storage-auth-key", Value.str "6ba7b810-9dad-11d1-80b4-00c04fd430c8")]),
        ["NewUUID"]) ∧
    attr (specPkg.UnknownAttrs (noKeyConfig ++
        [("storage-auth-key", Value.str "6ba7b810-9dad-11d1-80b4-00c04fd430c8")]))
      "storage-auth-key" = some (Value.str "6ba7b810-9dad-11d1-80b4-00c04fd430c8") :=
  ⟨rfl, rfl,
    ((((prepareConfig_injects_key specPkg demoNewUUID noKeyConfig [] (by decide)
      (fun c a c' hnodup _ happly k => specPkg_apply_law c a c' hnodup happly k)).1 rfl).2
      "6ba7b810-9dad-11d1-80b4-00c04fd430c8" ["NewUUID"] rfl).2
      (noKeyConfig ++ [("storage-auth-key", Value.str "6ba7b810-9dad-11d1-80b4-00c04fd430c8")])
      rfl).1⟩

/-! ## Defaults and the empty-field check -/

/-- A missing credential resolves to the empty string in a successful schema pass. -/
theorem validateFields_missing_credential (raw out : Attrs) (f : String)
    (hf : f = "username" ∨ f = "password") (hmissing : attr raw f = none)
    (h : validateFields raw configDefaultFields configFields = Except.ok out) :
    attr out f = some (Value.str "") := by
  have hmem : (f, Checker.string) ∈ configFields := by
    rcases hf with rfl | rfl <;> decide
  have hdef : attr configDefaultFields f = some (Value.str "") := by
    rcases hf with rfl | rfl <;> rfl
  obtain ⟨v, v', hgiven, hc, ha⟩ := validateFields_attr raw configDefaultFields configFields out h
    (by decide) f Checker.string hmem
  have hv : v = Value.str "" := by
    rcases hgiven with hraw | ⟨_, hd⟩
    · rw [hmissing] at hraw
      cases hraw
    · rw [hdef] at hd
      exact (Option.some.inj hd).symm
  subst hv
  obtain ⟨s, hs1, hs2⟩ := coerce_string_eq _ _ hc
  cases hs1
  rw [ha, hs2]

/-- C18: the schema pass being the one of the spec, with the defaults of `configDefaultFields`.
(1) A configuration that omits username, or omits password, is never valid.  When the
juju-level check and the schema pass succeed, the omitted field has resolved to the empty string
and `validateConfig` fails with "<field>: must not be empty" for an empty declared field; this
is the omitted field itself when no other declared field is empty.
(2) A configuration with non-empty credentials and storage-auth-key, from which the region or
the storage-port or both may be missing, passes the schema pass and the empty-field check; a
missing region resolves to the default region and a missing storage-port to 8040, and
`validateConfig` without a previous configuration returns these attributes once `Apply`
succeeds. -/
theorem validateConfig_defaults {Cfg : Type} (pkg : ConfigPkg Cfg) (order : List String)
    (cfg : Cfg) (hperm : order.Perm configFieldNames)
    (hspec : pkg.ValidateUnknownAttrs cfg configFields configDefaultFields =
      validateFields (pkg.UnknownAttrs cfg) configDefaultFields configFields) :
    (∀ f, (f = "username" ∨ f = "password") → attr (pkg.UnknownAttrs cfg) f = none →
      ∀ old : Option (environConfig Cfg),
        (∀ e, validateConfig pkg order cfg old ≠ Except.ok e) ∧
        (pkg.Validate cfg (old.map (fun o => o.Config)) = none →
          ∀ newAttrs,
            pkg.ValidateUnknownAttrs cfg configFields configDefaultFields = Except.ok newAttrs →
            attr newAttrs f = some (Value.str "") ∧
            (∃ g ∈ configFieldNames, attr newAttrs g = some (Value.str "") ∧
              validateConfig pkg order cfg old = Except.error (Error.emptyField g) ∧
              (Error.emptyField g).message = g ++ ": must not be empty") ∧
            ((∀ g ∈ configFieldNames, g ≠ f → attr newAttrs g ≠ some (Value.str "")) →
              validateConfig pkg order cfg old = Except.error (Error.emptyField f)))) ∧
    (∀ (u p k : String), u ≠ "" → p ≠ "" → k ≠ "" →
      attr (pkg.UnknownAttrs cfg) "username" = some (Value.str u) →
      attr (pkg.UnknownAttrs cfg) "password" = some (Value.str p) →
      attr (pkg.UnknownAttrs cfg) "storage-auth-key" = some (Value.str k) →
      (attr (pkg.UnknownAttrs cfg) "region" = none ∨
        ∃ r, r ≠ "" ∧ attr (pkg.UnknownAttrs cfg) "region" = some (Value.str r)) →
      (attr (pkg.UnknownAttrs cfg) "storage-port" = none ∨
        ∃ n, attr (pkg.UnknownAttrs cfg) "storage-port" = some (Value.int n)) →
      pkg.Validate cfg none = none →
      ∃ newAttrs,
        pkg.ValidateUnknownAttrs cfg configFields configDefaultFields = Except.ok newAttrs ∧
        (attr (pkg.UnknownAttrs cfg) "region" = none →
          attr newAttrs "region" = some (Value.str DefaultRegion)) ∧
        (attr (pkg.UnknownAttrs cfg) "storage-port" = none →
          attr newAttrs "storage-port" = some (Value.int 8040)) ∧
        checkEmpty newAttrs order = none ∧
        ∀ newCfg, pkg.Apply cfg newAttrs = Except.ok newCfg →
          validateConfig pkg order cfg none =
            Except.ok { Config := newCfg, attrs := newAttrs }) := by
  constructor
  · intro f hf hmissing old
    constructor
    · intro e he
      obtain ⟨_, hs, hce, _, _⟩ := validateConfig_ok_inv pkg order cfg old e he
      rw [hspec] at hs
      have hempty := validateFields_missing_credential _ _ f hf hmissing hs
      have hfmem : f ∈ configFieldNames := by
        rcases hf with rfl | rfl <;> decide
      exact (checkEmpty_eq_none_iff e.attrs order).mp hce f (hperm.mem_iff.mpr hfmem) hempty
    · intro hj newAttrs hs
      have hs2 := hs
      rw [hspec] at hs2
      have hempty := validateFields_missing_credential _ _ f hf hmissing hs2
      have hfmem : f ∈ configFieldNames := by
        rcases hf with rfl | rfl <;> decide
      have hrun := validateConfig_after_schema pkg order cfg old newAttrs hj hs
      cases hce : checkEmpty newAttrs order with
      | none =>
        exfalso
        exact (checkEmpty_eq_none_iff newAttrs order).mp hce f (hperm.mem_iff.mpr hfmem) hempty
      | some e1 =>
        obtain ⟨g, hg, hge, he1⟩ := checkEmpty_eq_some newAttrs order e1 hce
        have hres : validateConfig pkg order cfg old = Except.error (Error.emptyField g) := by
          rw [hrun, hce, he1]
        refine ⟨hempty, ⟨g, hperm.mem_iff.mp hg, hge, hres, rfl⟩, ?_⟩
        intro honly
        have hgf : g = f := by
          by_contra hne
          exact honly g (hperm.mem_iff.mp hg) hne hge
        rw [hres, hgf]
  · intro u p k hu hp hk hau hap hak hregion hport hj
    have hd1 : attr configDefaultFields "region" = some (Value.str DefaultRegion) := rfl
    have hd2 : attr configDefaultFields "storage-port" = some (Value.int 8040) := rfl
    have hkey : ∃ rv pv, rv ≠ "" ∧
        (attr (pkg.UnknownAttrs cfg) "region" = none → rv = DefaultRegion) ∧
        (attr (pkg.UnknownAttrs cfg) "storage-port" = none → pv = 8040) ∧
        validateFields (pkg.UnknownAttrs cfg) configDefaultFields configFields =
          Except.ok [ ("username", Value.str u), ("password", Value.str p),
            ("region", Value.str rv), ("storage-port", Value.int pv),
            ("storage-auth-key", Value.str k) ] := by
      rcases hregion with hr | ⟨r, hrne, hr⟩ <;> rcases hport with hn | ⟨n, hn⟩
      · refine ⟨DefaultRegion, 8040, by decide, fun _ => rfl, fun _ => rfl, ?_⟩
        simp only [validateFields, configFields, hau, hap, hak, hr, hn, hd1, hd2, coerce]
      · refine ⟨DefaultRegion, n, by decide, fun _ => rfl, ?_, ?_⟩
        · intro h
          rw [hn] at h
          cases h
        · simp only [validateFields, configFields, hau, hap, hak, hr, hn, hd1, hd2, coerce]
      · refine ⟨r, 8040, hrne, ?_, fun _ => rfl, ?_⟩
        · intro h
          rw [hr] at h
          cases h
        · simp only [validateFields, configFields, hau, hap, hak, hr, hn, hd1, hd2, coerce]
      · refine ⟨r, n, hrne, ?_, ?_, ?_⟩
        · intro h
          rw [hr] at h
          cases h
        · intro h
          rw [hn] at h
          cases h
        · simp only [validateFields, configFields, hau, hap, hak, hr, hn, hd1, hd2, coerce]
    obtain ⟨rv, pv, hrv, hrdef, hpdef, hfields⟩ := hkey
    have hs : pkg.ValidateUnknownAttrs cfg configFields configDefaultFields =
        Except.ok [ ("username", Value.str u), ("password", Value.str p),
          ("region", Value.str rv), ("storage-port", Value.int pv),
          ("storage-auth-key", Value.str k) ] := by
      rw [hspec, hfields]
    have hce : checkEmpty [ ("username", Value.str u), ("password", Value.str p),
        ("region", Value.str rv), ("storage-port", Value.int pv),
        ("storage-auth-key", Value.str k) ] order = none := by
      rw [checkEmpty_eq_none_iff]
      intro f hf
      have hf2 := hperm.mem_iff.mp hf
      simp only [configFieldNames, configFields, List.map_cons, List.map_nil, List.mem_cons,
        List.mem_singleton, List.not_mem_nil, or_false] at hf2
      rcases hf2 with rfl | rfl | rfl | rfl | rfl <;> simp [attr, hu, hp, hk, hrv]
    refine ⟨_, hs, ?_, ?_, hce, ?_⟩
    · intro hnone
      rw [hrdef hnone]
      simp [attr]
    · intro hnone
      rw [hpdef hnone]
      simp [attr]
    · intro newCfg happly
      rw [validateConfig_after_schema pkg order cfg none _ hj hs]
      simp only [hce, happly]

/-- C18, scenario: the full configuration without username is rejected with
"username: must not be empty"; a configuration without region and storage-port validates with
region zrh and port 8040. -/
theorem validateConfig_defaults_witness :
    validateConfig specPkg configFieldNames noUsername none =
      Except.error (Error.emptyField "username") ∧
    (Error.emptyField "username").message = "username: must not be empty" ∧
    ∃ newAttrs,
      specPkg.ValidateUnknownAttrs noRegionNoPort configFields configDefaultFields =
        Except.ok newAttrs ∧
      attr newAttrs "region" = some (Value.str "zrh") ∧
      attr newAttrs "storage-port" = some (Value.int 8040) ∧
      validateConfig specPkg configFieldNames noRegionNoPort none =
        Except.ok { Config := overlay noRegionNoPort newAttrs, attrs := newAttrs } := by
  have h1 := ((validateConfig_defaults specPkg configFieldNames noUsername (List.Perm.refl _)
    rfl).1 "username" (Or.inl rfl) rfl none).2 rfl
    [ ("username", Value.str ""), ("password", Value.str "b"), ("region", Value.str "zrh"),
      ("storage-port", Value.int 8040), ("storage-auth-key", Value.str "key") ] rfl
  obtain ⟨newAttrs, hs, hr, hp, _, hv⟩ :=
    (validateConfig_defaults specPkg configFieldNames noRegionNoPort (List.Perm.refl _)
      rfl).2 "a" "b" "key" (by decide) (by decide) (by decide) rfl rfl rfl (Or.inl rfl)
      (Or.inl rfl) rfl
  exact ⟨h1.2.2 (by decide), by decide, newAttrs, hs, hr rfl, hp rfl,
    hv (overlay noRegionNoPort newAttrs) rfl⟩

/-! ## Properties of the 1.24 state steps -/

namespace Upgrades

/-- C17: `stateStepsFor124` returns exactly one step.  Its targets are exactly
`DatabaseMaster`, so the role filter selects it for the database master and for no other role,
and its action returns what `state.AddDefaultBlockDevicesDocs` returns for the state of the
context, with the effect of that call on the world and no other. -/
theorem stateStepsFor124_single_step {Target Context St W : Type} [DecidableEq Target]
    (DatabaseMaster : Target) (State : Context → St)
    (AddDefaultBlockDevicesDocs : St → W → Option Error × W) :
    ∃ step : upgradeStep Target Context W,
      stateStepsFor124 DatabaseMaster State AddDefaultBlockDevicesDocs = [step] ∧
      step.description = "add block device documents for existing machines" ∧
      step.targets = [DatabaseMaster] ∧
      (∀ role, role ∈ step.targets ↔ role = DatabaseMaster) ∧
      (∀ context w, step.run context w = AddDefaultBlockDevicesDocs (State context) w) ∧
      stepsFor DatabaseMaster
        (stateStepsFor124 DatabaseMaster State AddDefaultBlockDevicesDocs) = [step] ∧
      (∀ role, role ≠ DatabaseMaster →
        stepsFor role (stateStepsFor124 DatabaseMaster State AddDefaultBlockDevicesDocs) = []) := by
  refine ⟨_, rfl, rfl, rfl, ?_, fun _ _ => rfl, ?_, ?_⟩
  · intro role
    simp
  · simp [stepsFor, stateStepsFor124]
  · intro role hne
    simp [stepsFor, stateStepsFor124, hne]

/-- C17, scenario: with roles as numbers and the database master being role 3, the filter keeps
the step for role 3 and drops it for role 0. -/
theorem stateStepsFor124_single_step_witness :
    (stepsFor (3 : Nat) (stateStepsFor124 (3 : Nat) (fun context : Unit => context)
      (fun (_ : Unit) (w : List String) => (none, w ++ ["AddDefaultBlockDevicesDocs"])))).length
        = 1 ∧
    stepsFor (0 : Nat) (stateStepsFor124 (3 : Nat) (fun context : Unit => context)
      (fun (_ : Unit) (w : List String) => (none, w ++ ["AddDefaultBlockDevicesDocs"]))) = [] := by
  obtain ⟨step, _, _, _, _, _, hsel, hdrop⟩ := stateStepsFor124_single_step (3 : Nat)
    (fun context : Unit => context)
    (fun (_ : Unit) (w : List String) => (none, w ++ ["AddDefaultBlockDevicesDocs"]))
  exact ⟨by rw [hsel]; rfl, hdrop 0 (by decide)⟩

end Upgrades

/-! ## Properties of the guard -/

namespace Locking

/-- One event of a caller keeps the mutex state equal to "some caller holds it" and keeps the
two callers from holding it together; `other` is whether the other caller holds the mutex. -/
theorem stepThread_inv (locked : Bool) (t : Thread) (other : Bool) (l : Bool) (t' : Thread)
    (hlock : (holds t || other) = locked) (hexcl : ¬ (holds t = true ∧ other = true))
    (hstep : stepThread locked t = some (l, t')) :
    (holds t' || other) = l ∧ ¬ (holds t' = true ∧ other = true) ∧ t'.method = t.method := by
  obtain ⟨m, pc⟩ := t
  cases m <;> rcases pc with _ | _ | _ | _ | _ | pc <;> cases other <;> cases locked <;>
    simp [stepThread, events, holds] at hlock hexcl hstep ⊢ <;>
    (try (obtain ⟨h1, h2⟩ := hstep; subst h1; subst h2; simp [holds, events]))

/-- The invariant of the guard: the mutex is locked exactly when a caller holds it, the two
callers never hold it together, and the callers run the methods they started with. -/
theorem run_inv (m1 m2 : Method) (s : State) (schedule : List Bool)
    (hlock : (holds s.t1 || holds s.t2) = s.locked)
    (hexcl : ¬ (holds s.t1 = true ∧ holds s.t2 = true))
    (hm1 : s.t1.method = m1) (hm2 : s.t2.method = m2) :
    (holds (run s schedule).t1 || holds (run s schedule).t2) = (run s schedule).locked ∧
    ¬ (holds (run s schedule).t1 = true ∧ holds (run s schedule).t2 = true) ∧
    (run s schedule).t1.method = m1 ∧ (run s schedule).t2.method = m2 := by
  induction schedule generalizing s with
  | nil => exact ⟨hlock, hexcl, hm1, hm2⟩
  | cons first rest ih =>
    simp only [run]
    cases first with
    | true =>
      cases hst : stepThread s.locked s.t1 with
      | none =>
        have hs : step s true = s := by simp [step, hst]
        rw [hs]
        exact ih s hlock hexcl hm1 hm2
      | some r =>
        obtain ⟨l, t⟩ := r
        have hs : step s true = { s with locked := l, t1 := t } := by simp [step, hst]
        rw [hs]
        obtain ⟨h1, h2, h3⟩ := stepThread_inv s.locked s.t1 (holds s.t2) l t hlock hexcl hst
        exact ih _ h1 h2 (h3.trans hm1) hm2
    | false =>
      cases hst : stepThread s.locked s.t2 with
      | none =>
        have hs : step s false = s := by simp [step, hst]
        rw [hs]
        exact ih s hlock hexcl hm1 hm2
      | some r =>
        obtain ⟨l, t⟩ := r
        have hs : step s false = { s with locked := l, t2 := t } := by simp [step, hst]
        rw [hs]
        obtain ⟨h1, h2, h3⟩ := stepThread_inv s.locked s.t2 (holds s.t1) l t
          (by rw [Bool.or_comm]; exact hlock) (fun h => hexcl ⟨h.2, h.1⟩) hst
        exact ih _ (by rw [Bool.or_comm]; exact h1) (fun h => h2 ⟨h.2, h.1⟩) hm1 (h3.trans hm2)

/-- A caller inside the body of `SetConfig` holds the mutex. -/
theorem inside_SetConfig_holds (t : Thread) (hm : t.method = Method.SetConfig)
    (hin : inside t = true) : holds t = true := by
  obtain ⟨m, pc⟩ := t
  simp only at hm
  subst hm
  rcases pc with _ | _ | _ | _ | _ | pc <;> simp [inside, events, holds] at hin ⊢

/-- C14, as stated, fails: `Bootstrap` and `Destroy` do not take the guard.  With one caller in
`SetConfig` and the other in `Bootstrap`, after the first has locked the mutex and entered its
body the second enters its body too, so both run at once while the mutex is held; the same
happens with `Destroy` beside `SetConfig`, and with `Bootstrap` beside `Destroy` without the
mutex being held at all. -/
theorem Bootstrap_Destroy_not_guarded :
    Event.lock ∉ events Method.Bootstrap ∧ Event.lock ∉ events Method.Destroy ∧
    (run (initial Method.SetConfig Method.Bootstrap) [true, true, false]).locked = true ∧
    inside (run (initial Method.SetConfig Method.Bootstrap) [true, true, false]).t1 = true ∧
    inside (run (initial Method.SetConfig Method.Bootstrap) [true, true, false]).t2 = true ∧
    inside (run (initial Method.SetConfig Method.Destroy) [true, true, false]).t1 = true ∧
    inside (run (initial Method.SetConfig Method.Destroy) [true, true, false]).t2 = true ∧
    inside (run (initial Method.Bootstrap Method.Destroy) [true, false]).t1 = true ∧
    inside (run (initial Method.Bootstrap Method.Destroy) [true, false]).t2 = true ∧
    (run (initial Method.Bootstrap Method.Destroy) [true, false]).locked = false := by
  decide

/-- C14, amended: only `SetConfig` takes the guard; its first event locks `env.lock` and its
last event unlocks it, while `Bootstrap` and `Destroy` never touch it.  Under every schedule of
two callers on one environment, a caller inside `SetConfig` holds the mutex, and two callers are
never inside `SetConfig` together: whenever both callers are inside their bodies, at most one
of them runs `SetConfig`. -/
theorem SetConfig_calls_exclusive (m1 m2 : Method) (schedule : List Bool) :
    (events Method.SetConfig).head? = some Event.lock ∧
    (events Method.SetConfig).getLast? = some Event.unlock ∧
    Event.lock ∉ events Method.Bootstrap ∧ Event.lock ∉ events Method.Destroy ∧
    (m1 = Method.SetConfig → inside (run (initial m1 m2) schedule).t1 = true →
      (run (initial m1 m2) schedule).locked = true) ∧
    (m2 = Method.SetConfig → inside (run (initial m1 m2) schedule).t2 = true →
      (run (initial m1 m2) schedule).locked = true) ∧
    (inside (run (initial m1 m2) schedule).t1 = true →
      inside (run (initial m1 m2) schedule).t2 = true →
      ¬ (m1 = Method.SetConfig ∧ m2 = Method.SetConfig)) := by
  obtain ⟨hlock, hexcl, hm1, hm2⟩ := run_inv m1 m2 (initial m1 m2) schedule
    (by cases m1 <;> cases m2 <;> decide) (by cases m1 <;> cases m2 <;> decide) rfl rfl
  refine ⟨by decide, by decide, by decide, by decide, ?_, ?_, ?_⟩
  · intro hm hin
    have hh := inside_SetConfig_holds _ (hm1.trans hm) hin
    rw [← hlock, hh]
    rfl
  · intro hm hin
    have hh := inside_SetConfig_holds _ (hm2.trans hm) hin
    rw [← hlock, hh]
    simp
  · intro hin1 hin2 hboth
    exact hexcl ⟨inside_SetConfig_holds _ (hm1.trans hboth.1) hin1,
      inside_SetConfig_holds _ (hm2.trans hboth.2) hin2⟩

/-- C14, scenario: two callers in `SetConfig`; once the first has locked the mutex and entered
its body, the turns given to the second leave it blocked before its `Lock`, outside its body. -/
theorem SetConfig_calls_exclusive_witness :
    inside (run (initial Method.SetConfig Method.SetConfig) [true, true, false, false]).t1 =
      true ∧
    (run (initial Method.SetConfig Method.SetConfig) [true, true, false, false]).locked = true ∧
    (run (initial Method.SetConfig Method.SetConfig) [true, true, false, false]).t2 =
      { method := Method.SetConfig, pc := 0 } ∧
    inside (run (initial Method.SetConfig Method.SetConfig) [true, true, false, false]).t2 =
      false := by
  have h := SetConfig_calls_exclusive Method.SetConfig Method.SetConfig
    [true, true, false, false]
  have hin : inside (run (initial Method.SetConfig Method.SetConfig)
      [true, true, false, false]).t1 = true := by decide
  exact ⟨hin, h.2.2.2.2.1 rfl hin, by decide, by decide⟩

end Locking

end CloudSigma
